import Mathlib

/-!
mega65-fdisk: FDISK + FORMAT for the MEGA65 (`fdisk.c`)

A shallow embedding of the hardware independent logic of `fdisk.c`:
the five sector builders, the cluster fitting loop of `main`, and the
sequence of `sdcard_writesector` / `sdcard_erase` calls `main` issues.

Conventions.
* A `uint8_t` / `uint32_t` value is a `Nat`; 32-bit arithmetic is written
  with `add32`, `sub32`, `mul32`, which reduce modulo `2^32 = 4294967296`.
* `sector_buffer` is a map from index to byte. A builder takes the buffer it
  finds and returns the buffer it leaves; `sectorImage` is the 512 bytes a
  sector write transfers.
* The embedding follows the build for UNIX-like systems (the `#else` branches
  of `__CC65__`): diagnostic `fprintf` output is dropped, and the CC65-only
  confirmation prompt, which changes no variable, is dropped as well.
-/

namespace Fdisk

/-! ## Machine arithmetic -/

/-- Addition of two `uint32_t` values. -/
def add32 (a b : Nat) : Nat := (a + b) % 4294967296

/-- Subtraction of two `uint32_t` values (both below `2^32`). -/
def sub32 (a b : Nat) : Nat := (a + 4294967296 - b) % 4294967296

/-- Multiplication of two `uint32_t` values. -/
def mul32 (a b : Nat) : Nat := (a * b) % 4294967296

/-! ## The sector buffer -/

/-- The contents of `sector_buffer`, index to byte. -/
abbrev Buffer := Nat → Nat

/-- The assignment `sector_buffer[i] = v`. -/
def store (b : Buffer) (i v : Nat) : Buffer := fun j => if j = i then v else b j

/-- The 512 bytes of the buffer, as handed to a sector write. -/
def sectorImage (b : Buffer) : List Nat := (List.range 512).map b

/-- Byte `i` of a sector image. -/
def byteAt (img : List Nat) (i : Nat) : Nat := img.getD i 0

/-- The four bytes at `off .. off+3` of a sector image, read little-endian. -/
def le32 (img : List Nat) (off : Nat) : Nat :=
  byteAt img off + 256 * byteAt img (off + 1) + 65536 * byteAt img (off + 2)
    + 16777216 * byteAt img (off + 3)

/-- The `n` bytes at `off .. off+n-1` of a sector image. -/
def bytesAt (img : List Nat) (off n : Nat) : List Nat :=
  (List.range n).map (fun k => byteAt img (off + k))

/-- `clear_sector_buffer`: `for(i=0;i<512;i++) sector_buffer[i]=0;`. -/
def clear_sector_buffer (sector_buffer : Buffer) : Buffer :=
  (List.range 512).foldl (fun b i => store b i 0) sector_buffer

/-! ## Sector builders -/

/-- `build_mbr(partition_sectors)`. -/
def build_mbr (partition_sectors : Nat) (sector_buffer : Buffer) : Buffer :=
  let b := clear_sector_buffer sector_buffer
  -- Set disk signature (fixed value)
  let b := store b 0x1b8 0x83
  let b := store b 0x1b9 0x7d
  let b := store b 0x1ba 0xcb
  let b := store b 0x1bb 0xa6
  -- FAT32 Partition entry
  let b := store b 0x1be 0x00
  let b := store b 0x1bf 0x00
  let b := store b 0x1c0 0x00
  let b := store b 0x1c1 0x00
  let b := store b 0x1c2 0x0c
  let b := store b 0x1c3 0x00
  let b := store b 0x1c4 0x00
  let b := store b 0x1c5 0x00
  let b := store b 0x1c6 0x00
  let b := store b 0x1c7 0x08
  let b := store b 0x1c8 0x00
  let b := store b 0x1c9 0x00
  -- LBA size of partition in sectors
  let b := store b 0x1ca ((partition_sectors >>> 0) &&& 0xff)
  let b := store b 0x1cb ((partition_sectors >>> 8) &&& 0xff)
  let b := store b 0x1cc ((partition_sectors >>> 16) &&& 0xff)
  let b := store b 0x1cd ((partition_sectors >>> 24) &&& 0xff)
  -- MBR signature
  let b := store b 0x1fe 0x55
  store b 0x1ff 0xaa

/-- The array `boot_bytes[258]`. The initialiser lists 257 values, so the
last element, index 257, is zero. -/
def boot_bytes : List Nat :=
  [
   0xeb, 0x58, 0x90, 0x4d, 0x45, 0x47, 0x41, 0x36, 0x35, 0x72, 0x31, 0x00, 0x02, 0x08, 0x38, 0x02,
   0x02, 0x00, 0x00, 0x00, 0x00, 0xf8, 0x00, 0x00, 0x00, 0x00, 0x00, 0x00, 0x00, 0x00, 0x00, 0x00,
   0x00, 0xe8, 0x0f, 0x00, 0xf8, 0x03, 0x00, 0x00, 0x00, 0x00, 0x00, 0x00, 0x02, 0x00, 0x00, 0x00,
   0x01, 0x00, 0x06, 0x00, 0x00, 0x00, 0x00, 0x00, 0x00, 0x00, 0x00, 0x00, 0x00, 0x00, 0x00, 0x00,
   0x80, 0x00, 0x29, 0x6d, 0x66, 0x62, 0x61, 0x4d, 0x2e, 0x45, 0x2e, 0x47, 0x2e, 0x41, 0x2e, 0x20,
   0x36, 0x35, 0x46, 0x41, 0x54, 0x33, 0x32, 0x20, 0x20, 0x20, 0x0e, 0x1f, 0xbe, 0x77, 0x7c, 0xac,
   0x22, 0xc0, 0x74, 0x0b, 0x56, 0xb4, 0x0e, 0xbb, 0x07, 0x00, 0xcd, 0x10, 0x5e, 0xeb, 0xf0, 0x32,
   0xe4, 0xcd, 0x16, 0xcd, 0x19, 0xeb, 0xfe, 0x4d, 0x45, 0x47, 0x41, 0x36, 0x35, 0x20, 0x4b, 0x49,
   0x43, 0x4b, 0x53, 0x54, 0x41, 0x52, 0x54, 0x20, 0x56, 0x30, 0x30, 0x2e, 0x31, 0x31, 0x0d, 0x0a,
   0x0d, 0x3f, 0x4e, 0x4f, 0x20, 0x34, 0x35, 0x47, 0x53, 0x30, 0x32, 0x2c, 0x20, 0x34, 0x35, 0x31,
   0x30, 0x2c, 0x20, 0x36, 0x35, 0x5b, 0x63, 0x65, 0x5d, 0x30, 0x32, 0x2c, 0x20, 0x36, 0x35, 0x31,
   0x30, 0x20, 0x4f, 0x52, 0x20, 0x38, 0x35, 0x31, 0x30, 0x20, 0x50, 0x52, 0x4f, 0x43, 0x45, 0x53,
   0x53, 0x4f, 0x52, 0x20, 0x20, 0x45, 0x52, 0x52, 0x4f, 0x52, 0x0d, 0x0a, 0x49, 0x4e, 0x53, 0x45,
   0x52, 0x54, 0x20, 0x44, 0x49, 0x53, 0x4b, 0x20, 0x49, 0x4e, 0x20, 0x52, 0x45, 0x41, 0x4c, 0x20,
   0x43, 0x4f, 0x4d, 0x50, 0x55, 0x54, 0x45, 0x52, 0x20, 0x41, 0x4e, 0x44, 0x20, 0x54, 0x52, 0x59,
   0x20, 0x41, 0x47, 0x41, 0x49, 0x4e, 0x2e, 0x0a, 0x0a, 0x52, 0x45, 0x41, 0x44, 0x59, 0x2e, 0x0d,
   0x0a
  ] ++ [0x00]

/-- `build_dosbootsector(volume_name, data_sectors, fs_sectors_per_fat)`.
The argument `volume_name` is not read by the body. -/
def build_dosbootsector (_volume_name : List Nat) (data_sectors fs_sectors_per_fat : Nat)
    (sector_buffer : Buffer) : Buffer :=
  let b := clear_sector_buffer sector_buffer
  -- Start with template, and then modify relevant fields
  let b := (List.range 258).foldl (fun b i => store b i (boot_bytes.getD i 0)) b
  -- 0x20-0x23 = 32-bit number of data sectors in file system
  let b := (List.range 4).foldl
    (fun b i => store b (0x20 + i) ((data_sectors >>> (i * 8)) &&& 0xff)) b
  -- 0x24-0x27 = 32-bit number of sectors per fat
  let b := (List.range 4).foldl
    (fun b i => store b (0x24 + i) ((fs_sectors_per_fat >>> (i * 8)) &&& 0xff)) b
  -- Boot sector signature
  let b := store b 510 0x55
  store b 511 0xaa

/-- `build_fs_information_sector(fs_clusters)`. -/
def build_fs_information_sector (fs_clusters : Nat) (sector_buffer : Buffer) : Buffer :=
  let b := clear_sector_buffer sector_buffer
  let b := store b 0 0x52
  let b := store b 1 0x52
  let b := store b 2 0x61
  let b := store b 3 0x41
  let b := store b 0x1e4 0x72
  let b := store b 0x1e5 0x72
  let b := store b 0x1e6 0x41
  let b := store b 0x1e7 0x61
  -- Number of free clusters
  let b := (List.range 4).foldl
    (fun b i => store b (0x1e8 + i) ((sub32 fs_clusters 3 >>> (i * 8)) &&& 0xff)) b
  -- First free cluster
  let b := store b 0x1ec (0x02 + 1)
  -- Boot sector signature
  let b := store b 510 0x55
  store b 511 0xaa

/-- The array `fat_bytes[12]`. -/
def fat_bytes : List Nat :=
  [0xf8, 0xff, 0xff, 0x0f, 0xff, 0xff, 0xff, 0x0f, 0xf8, 0xff, 0xff, 0x0f]

/-- `build_empty_fat()`. -/
def build_empty_fat (sector_buffer : Buffer) : Buffer :=
  let b := clear_sector_buffer sector_buffer
  (List.range 12).foldl (fun b i => store b i (fat_bytes.getD i 0)) b

/-- The array `dir_bytes[15]`. -/
def dir_bytes : List Nat :=
  [8, 0, 0, 0x53, 0xae, 0x93, 0x4a, 0x93, 0x4a, 0, 0, 0x53, 0xae, 0x93, 0x4a]

/-- `build_root_dir(volume_name)`. -/
def build_root_dir (volume_name : List Nat) (sector_buffer : Buffer) : Buffer :=
  let b := clear_sector_buffer sector_buffer
  let b := (List.range 11).foldl (fun b i => store b i (volume_name.getD i 0)) b
  (List.range 15).foldl (fun b i => store b (11 + i) (dir_bytes.getD i 0)) b

/-! ## Globals of `main` -/

/-- `uint32_t reserved_sectors=568;`. -/
def reserved_sectors : Nat := 568

/-- `uint8_t sectors_per_cluster=8;`. -/
def sectors_per_cluster : Nat := 8

/-- `uint8_t volume_name[11]="M.E.G.A.65!";`. -/
def volume_name : List Nat :=
  [0x4d, 0x2e, 0x45, 0x2e, 0x47, 0x2e, 0x41, 0x2e, 0x36, 0x35, 0x21]

/-! ## Cluster fitting (lines 266-297 of `main`) -/

/-- The statement `fat_sectors=fs_clusters/(512/4); if (fs_clusters%(512/4)) fat_sectors++;`
(lines 284 and 295). -/
def fat_sectors_of (fs_clusters : Nat) : Nat :=
  let fat_sectors := fs_clusters / (512 / 4)
  if fs_clusters % (512 / 4) ≠ 0 then add32 fat_sectors 1 else fat_sectors

/-- The statement `sectors_required=2*fat_sectors+((fs_clusters-2)*sectors_per_cluster);`
(lines 285 and 296). -/
def sectors_required_of (fs_clusters fat_sectors : Nat) : Nat :=
  add32 (mul32 2 fat_sectors) (mul32 (sub32 fs_clusters 2) sectors_per_cluster)

/-- The variables the fitting loop updates. -/
structure Fit where
  fs_clusters : Nat
  fat_sectors : Nat
  sectors_required : Nat
deriving DecidableEq

/-- One execution of the body of `while(sectors_required>available_sectors)`. -/
def fit_step (available_sectors : Nat) (s : Fit) : Fit :=
  let excess_sectors := sub32 s.sectors_required available_sectors
  let delta := excess_sectors / (1 + sectors_per_cluster)
  let delta := if delta < 1 then 1 else delta
  let fs_clusters := sub32 s.fs_clusters delta
  let fat_sectors := fat_sectors_of fs_clusters
  { fs_clusters := fs_clusters
    fat_sectors := fat_sectors
    sectors_required := sectors_required_of fs_clusters fat_sectors }

/-- The loop `while(sectors_required>available_sectors) { ... }`, run for at most
`fuel` executions of its body; `none` when the condition still holds after that. -/
def fit_loop (available_sectors : Nat) : Nat → Fit → Option Fit
  | 0, s => if s.sectors_required > available_sectors then none else some s
  | fuel + 1, s =>
    if s.sectors_required > available_sectors then
      fit_loop available_sectors fuel (fit_step available_sectors s)
    else some s

/-- The values of the geometry globals once `main` has reached line 333. -/
structure Geometry where
  sdcard_sectors : Nat
  partition_sectors : Nat
  available_sectors : Nat
  fs_clusters : Nat
  fat_sectors : Nat
  sectors_required : Nat
  fat1_sector : Nat
  fat2_sector : Nat
  rootdir_sector : Nat
  fs_data_sectors : Nat
deriving DecidableEq

/-- Lines 270-285: the values with which the fitting loop is entered. -/
def fit_init (available_sectors : Nat) : Fit :=
  let fs_clusters := available_sectors / sectors_per_cluster
  let fat_sectors := fat_sectors_of fs_clusters
  { fs_clusters := fs_clusters
    fat_sectors := fat_sectors
    sectors_required := sectors_required_of fs_clusters fat_sectors }

/-- Lines 330-333 of `main`: the sector offsets derived from the outcome `s` of
the fitting loop, together with the values computed before. -/
def layout (sdcard_sectors partition_sectors available_sectors : Nat) (s : Fit) : Geometry :=
  let fat1_sector := add32 0x0800 reserved_sectors
  let fat2_sector := add32 fat1_sector s.fat_sectors
  let rootdir_sector := add32 fat2_sector s.fat_sectors
  { sdcard_sectors := sdcard_sectors
    partition_sectors := partition_sectors
    available_sectors := available_sectors
    fs_clusters := s.fs_clusters
    fat_sectors := s.fat_sectors
    sectors_required := s.sectors_required
    fat1_sector := fat1_sector
    fat2_sector := fat2_sector
    rootdir_sector := rootdir_sector
    fs_data_sectors := mul32 s.fs_clusters sectors_per_cluster }

/-- Lines 266-333 of `main`: the geometry computed from the card size
`sdcard_getsize()` returned; `none` when the fitting loop is still running
after `fuel` executions of its body. -/
def plan (fuel sdcard_sectors : Nat) : Option Geometry :=
  let partition_sectors := sub32 sdcard_sectors 0x0800
  let available_sectors := sub32 partition_sectors reserved_sectors
  (fit_loop available_sectors fuel (fit_init available_sectors)).map
    (layout sdcard_sectors partition_sectors available_sectors)

/-- What every state of the fitting loop satisfies: `fs_clusters` is a 32-bit
value and `fat_sectors` was computed from it. -/
def FitInv (s : Fit) : Prop :=
  s.fs_clusters < 4294967296 ∧ s.fat_sectors = fat_sectors_of s.fs_clusters

/-- A state of the fitting loop in which no 32-bit operation has wrapped: at least
two clusters, `fat_sectors` the rounded-up quotient, `sectors_required` the exact
sum, and that sum below `2^32`. -/
def FitExact (s : Fit) : Prop :=
  2 ≤ s.fs_clusters ∧ s.fat_sectors = (s.fs_clusters + 127) / 128
    ∧ s.sectors_required = 2 * s.fat_sectors + (s.fs_clusters - 2) * 8
    ∧ s.sectors_required < 4294967296

/-! ## The card and the write sequence (lines 335-396 of `main`) -/

/-- A call `main` makes to the storage layer. -/
inductive Call where
  | writesector (sector : Nat) (image : List Nat)
  | erase (first last : Nat)
deriving DecidableEq

/-- The sector a call writes, `none` for an erase. -/
def Call.written : Call → Option Nat
  | Call.writesector sector _ => some sector
  | Call.erase _ _ => none

/-- The state `main` works on: the sector buffer, the card contents (sector
index to 512-byte image) and the calls made so far, oldest first. -/
structure Machine where
  sector_buffer : Buffer
  card : Nat → List Nat
  calls : List Call

/-- Modelled from the spec: `sdcard_writesector` is declared in `fdisk_hal.h`; its
body belongs to the hardware layer and is not part of this file. It writes the
current sector buffer, one 512-byte sector, at an absolute sector index. -/
def sdcard_writesector (sector : Nat) (m : Machine) : Machine :=
  { m with
    card := fun s => if s = sector then sectorImage m.sector_buffer else m.card s
    calls := m.calls ++ [Call.writesector sector (sectorImage m.sector_buffer)] }

/-- Modelled from the spec: `sdcard_erase` is declared in `fdisk_hal.h`; its body
belongs to the hardware layer and is not part of this file. It zero-fills the
inclusive sector range `first .. last`, and does nothing when `first > last`. -/
def sdcard_erase (first last : Nat) (m : Machine) : Machine :=
  { m with
    card := fun s => if first ≤ s ∧ s ≤ last then List.replicate 512 0 else m.card s
    calls := m.calls ++ [Call.erase first last] }

/-- A builder acting on the buffer of the machine. -/
def Machine.build (f : Buffer → Buffer) (m : Machine) : Machine :=
  { m with sector_buffer := f m.sector_buffer }

/-- Lines 335-396 of `main`: the writes and erases for a computed geometry. -/
def format (g : Geometry) (m : Machine) : Machine :=
  -- MBR is always the first sector of a disk
  let m := m.build (build_mbr g.partition_sectors)
  let m := sdcard_writesector 0 m
  -- Blank intervening sectors
  let m := sdcard_erase (0 + 1) (0x0800 - 1) m
  -- Partition starts at fixed position of sector 2048, i.e., 1MB
  let m := m.build (build_dosbootsector volume_name g.partition_sectors g.fat_sectors)
  let m := sdcard_writesector 0x0800 m
  let m := sdcard_writesector 0x0806 m
  -- FAT32 FS Information block (and backup)
  let m := m.build (build_fs_information_sector g.fs_clusters)
  let m := sdcard_writesector 0x0801 m
  let m := sdcard_writesector 0x0807 m
  -- FATs
  let m := m.build build_empty_fat
  let m := sdcard_writesector g.fat1_sector m
  let m := sdcard_writesector g.fat2_sector m
  -- Root directory
  let m := m.build (build_root_dir volume_name)
  let m := sdcard_writesector g.rootdir_sector m
  -- Make sure all other sectors are empty
  let m := sdcard_erase (0x0801 + 1) (0x0806 - 1) m
  let m := sdcard_erase (0x0806 + 1) (sub32 g.fat1_sector 1) m
  let m := sdcard_erase (add32 g.fat1_sector 1) (sub32 g.fat2_sector 1) m
  let m := sdcard_erase (add32 g.fat2_sector 1) (sub32 g.rootdir_sector 1) m
  sdcard_erase (add32 g.rootdir_sector 1)
    (sub32 (add32 (add32 g.rootdir_sector 1) sectors_per_cluster) 1) m

/-- The function `main` for a card of `sdcard_sectors` sectors; `none` when the
fitting loop is still running after `fuel` executions of its body. -/
def main (fuel sdcard_sectors : Nat) (m : Machine) : Option Machine :=
  match plan fuel sdcard_sectors with
  | none => none
  | some g => some (format g m)

/-- A machine with an all-zero buffer, an all-zero card and no calls made. -/
def Machine.blank : Machine :=
  { sector_buffer := fun _ => 0
    card := fun _ => List.replicate 512 0
    calls := [] }

/-! ## Named images, replay of calls, states of the fitting loop -/

/-- The two bytes at `off`, `off+1` of a sector image, read little-endian. -/
def le16 (img : List Nat) (off : Nat) : Nat :=
  byteAt img off + 256 * byteAt img (off + 1)

/-- The image `build_mbr` leaves when it starts on an all-zero buffer. -/
def mbr_image (partition_sectors : Nat) : List Nat :=
  sectorImage (build_mbr partition_sectors (fun _ => 0))

/-- The image `build_dosbootsector` leaves when it starts on an all-zero buffer. -/
def boot_image (name : List Nat) (data_sectors fs_sectors_per_fat : Nat) : List Nat :=
  sectorImage (build_dosbootsector name data_sectors fs_sectors_per_fat (fun _ => 0))

/-- The image `build_fs_information_sector` leaves when it starts on an all-zero
buffer. -/
def fs_information_image (fs_clusters : Nat) : List Nat :=
  sectorImage (build_fs_information_sector fs_clusters (fun _ => 0))

/-- The image `build_empty_fat` leaves when it starts on an all-zero buffer. -/
def empty_fat_image : List Nat :=
  sectorImage (build_empty_fat (fun _ => 0))

/-- The image `build_root_dir` leaves when it starts on an all-zero buffer. -/
def root_dir_image (name : List Nat) : List Nat :=
  sectorImage (build_root_dir name (fun _ => 0))

/-- The card after a call, given the card before it: the effect `sdcard_writesector`
and `sdcard_erase` have on the card, with the written image made explicit. -/
def Call.apply : Call → (Nat → List Nat) → Nat → List Nat
  | Call.writesector sector image, card => fun s => if s = sector then image else card s
  | Call.erase first last, card =>
    fun s => if first ≤ s ∧ s ≤ last then List.replicate 512 0 else card s

/-- The card after a sequence of calls, oldest first. -/
def replay (calls : List Call) (card : Nat → List Nat) : Nat → List Nat :=
  calls.foldl (fun c call => call.apply c) card

/-- A call touches the sector it writes, or every sector of the range it erases. -/
def Call.touches : Call → Nat → Prop
  | Call.writesector sector _, s => s = sector
  | Call.erase first last, s => first ≤ s ∧ s ≤ last

/-- The calls of lines 335-396 of `main`, in order, each written image named. -/
def format_calls (g : Geometry) : List Call :=
  [ Call.writesector 0 (mbr_image g.partition_sectors),
    Call.erase (0 + 1) (0x0800 - 1),
    Call.writesector 0x0800 (boot_image volume_name g.partition_sectors g.fat_sectors),
    Call.writesector 0x0806 (boot_image volume_name g.partition_sectors g.fat_sectors),
    Call.writesector 0x0801 (fs_information_image g.fs_clusters),
    Call.writesector 0x0807 (fs_information_image g.fs_clusters),
    Call.writesector g.fat1_sector empty_fat_image,
    Call.writesector g.fat2_sector empty_fat_image,
    Call.writesector g.rootdir_sector (root_dir_image volume_name),
    Call.erase (0x0801 + 1) (0x0806 - 1),
    Call.erase (0x0806 + 1) (sub32 g.fat1_sector 1),
    Call.erase (add32 g.fat1_sector 1) (sub32 g.fat2_sector 1),
    Call.erase (add32 g.fat2_sector 1) (sub32 g.rootdir_sector 1),
    Call.erase (add32 g.rootdir_sector 1)
      (sub32 (add32 (add32 g.rootdir_sector 1) sectors_per_cluster) 1) ]

/-- The loop variables after `k` executions of the body of the fitting loop. -/
def fit_state (available_sectors k : Nat) : Fit :=
  (fit_step available_sectors)^[k] (fit_init available_sectors)

/-- The body of the fitting loop is executed at least `k` times: the loop condition
holds in each of the `k` states before. -/
def fit_runs (available_sectors k : Nat) : Prop :=
  ∀ i, i < k → (fit_state available_sectors i).sectors_required > available_sectors

/-- The first sector of cluster `c` in the file system a boot sector image
describes, for a partition that starts at sector `partition_start`: the data region
follows the reserved sectors (field 0x0E) and the FATs (their number, field 0x10,
times the sectors per FAT, field 0x24); clusters are numbered from 2 and each has
as many sectors as field 0x0D says. The fields are the ones the comments of
`boot_bytes` name. -/
def cluster_sector (partition_start : Nat) (boot : List Nat) (c : Nat) : Nat :=
  partition_start + le16 boot 0x0E + byteAt boot 0x10 * le32 boot 0x24
    + (c - 2) * byteAt boot 0x0D

/-! ## Properties -/

set_option maxRecDepth 100000

/-! ### The buffer -/

@[simp] theorem store_apply (b : Buffer) (i v j : Nat) :
    store b i v j = if j = i then v else b j := rfl

/-- A counting loop that stores `f i` at `base + i`. -/
theorem foldl_store_range (f : Nat → Nat) (base n : Nat) (b : Buffer) (j : Nat) :
    (List.range n).foldl (fun b i => store b (base + i) (f i)) b j
      = if base ≤ j ∧ j < base + n then f (j - base) else b j := by
  induction n with
  | zero => rw [if_neg (by omega)]; rfl
  | succ n ih =>
    rw [List.range_succ, List.foldl_append]
    simp only [List.foldl_cons, List.foldl_nil, store_apply, ih]
    split_ifs <;> first | rfl | omega | (congr 1; omega)

/-- A counting loop that stores `f i` at `i`. -/
theorem foldl_store_range_zero (f : Nat → Nat) (n : Nat) (b : Buffer) (j : Nat) :
    (List.range n).foldl (fun b i => store b i (f i)) b j
      = if j < n then f j else b j := by
  have h := foldl_store_range f 0 n b j
  simpa using h

theorem clear_sector_buffer_apply (b : Buffer) (j : Nat) :
    clear_sector_buffer b j = if j < 512 then 0 else b j := by
  unfold clear_sector_buffer
  exact foldl_store_range_zero (fun _ => 0) 512 b j

theorem length_sectorImage (b : Buffer) : (sectorImage b).length = 512 := by
  simp [sectorImage]

theorem byteAt_sectorImage (b : Buffer) (i : Nat) :
    byteAt (sectorImage b) i = if i < 512 then b i else 0 := by
  unfold byteAt sectorImage
  by_cases h : i < 512
  · simp [List.getD_eq_getElem?_getD, h]
  · rw [if_neg h, List.getD_eq_default]
    simp; omega

/-- The expression `(x >> k) & 0xff` is byte `k/8` of `x`. -/
theorem shift_and_byte (x k : Nat) : (x >>> k) &&& 0xff = x / 2 ^ k % 256 := by
  rw [Nat.shiftRight_eq_div_pow]
  exact Nat.and_pow_two_sub_one_eq_mod _ 8

/-- Four bytes of a 32-bit value, least significant first, give the value back. -/
theorem le_bytes_eq (x : Nat) (h : x < 4294967296) :
    x % 256 + 256 * (x / 256 % 256) + 65536 * (x / 65536 % 256)
      + 16777216 * (x / 16777216 % 256) = x := by
  omega

/-! ### The sector builders -/

/-- The volume ID of the template is "mfba". -/
theorem boot_bytes_volume_id : bytesAt boot_bytes 0x43 4 = [0x6d, 0x66, 0x62, 0x61] := by
  decide

/-- The label of the template is "M.E.G.A. 65". -/
theorem boot_bytes_label :
    bytesAt boot_bytes 0x47 11
      = [0x4d, 0x2e, 0x45, 0x2e, 0x47, 0x2e, 0x41, 0x2e, 0x20, 0x36, 0x35] := by
  decide

/-- C6: for every 32-bit `partition_sectors` and every prior buffer content, the
image `build_mbr` leaves has 512 bytes; bytes 0x1C6..0x1C9 read little-endian are
2048; bytes 0x1CA..0x1CD read little-endian are `partition_sectors`; byte 0x1C2 is
0x0C; bytes 0x1B8..0x1BB are 83 7D CB A6; bytes 510..511 are 55 AA; every other
byte (boot flag and both CHS fields included) is zero. -/
theorem build_mbr_image (partition_sectors : Nat) (buf : Buffer)
    (h32 : partition_sectors < 2 ^ 32) :
    (sectorImage (build_mbr partition_sectors buf)).length = 512
    ∧ le32 (sectorImage (build_mbr partition_sectors buf)) 0x1C6 = 2048
    ∧ le32 (sectorImage (build_mbr partition_sectors buf)) 0x1CA = partition_sectors
    ∧ byteAt (sectorImage (build_mbr partition_sectors buf)) 0x1C2 = 0x0C
    ∧ bytesAt (sectorImage (build_mbr partition_sectors buf)) 0x1B8 4
        = [0x83, 0x7D, 0xCB, 0xA6]
    ∧ bytesAt (sectorImage (build_mbr partition_sectors buf)) 510 2 = [0x55, 0xAA]
    ∧ ∀ i, i < 512 →
        i ∉ [0x1B8, 0x1B9, 0x1BA, 0x1BB, 0x1C2, 0x1C6, 0x1C7, 0x1C8, 0x1C9,
              0x1CA, 0x1CB, 0x1CC, 0x1CD, 510, 511] →
        byteAt (sectorImage (build_mbr partition_sectors buf)) i = 0 := by
  refine ⟨length_sectorImage _, ?_, ?_, ?_, ?_, ?_, ?_⟩
  · simp [le32, byteAt_sectorImage, build_mbr]
  · simp only [le32, byteAt_sectorImage, build_mbr, store_apply, shift_and_byte]
    norm_num
    omega
  · simp [byteAt_sectorImage, build_mbr]
  · simp [bytesAt, List.range_succ, byteAt_sectorImage, build_mbr]
  · simp [bytesAt, List.range_succ, byteAt_sectorImage, build_mbr]
  · intro i hi h
    simp only [List.mem_cons, List.mem_singleton, not_or, List.mem_nil_iff,
      not_false_eq_true, and_true] at h
    rw [byteAt_sectorImage, if_pos hi]
    unfold build_mbr
    simp only [store_apply, clear_sector_buffer_apply]
    simp [h, hi]

/-- Witness for `build_mbr_image`: a 63488-sector partition over a buffer of 0xE5. -/
theorem build_mbr_image_witness :
    (63488 < 2 ^ 32)
    ∧ le32 (sectorImage (build_mbr 63488 (fun _ => 0xE5))) 0x1CA = 63488 :=
  ⟨by norm_num, (build_mbr_image 63488 (fun _ => 0xE5) (by norm_num)).2.2.1⟩

theorem build_dosbootsector_apply (name : List Nat) (data_sectors fs_sectors_per_fat : Nat)
    (buf : Buffer) (j : Nat) :
    build_dosbootsector name data_sectors fs_sectors_per_fat buf j =
    if j = 511 then 0xaa else if j = 510 then 0x55
    else if 0x24 ≤ j ∧ j < 0x24 + 4 then fs_sectors_per_fat / 2 ^ ((j - 0x24) * 8) % 256
    else if 0x20 ≤ j ∧ j < 0x20 + 4 then data_sectors / 2 ^ ((j - 0x20) * 8) % 256
    else if j < 258 then boot_bytes.getD j 0
    else if j < 512 then 0 else buf j := by
  unfold build_dosbootsector
  simp only [store_apply, foldl_store_range, foldl_store_range_zero,
    clear_sector_buffer_apply, shift_and_byte]

/-- C7: for every `volume_name`, and every 32-bit `data_sectors` and
`fs_sectors_per_fat`, the image `build_dosbootsector` leaves has 512 bytes; bytes
0..257 are the template `boot_bytes` except that bytes 0x20..0x23 are
`data_sectors` and bytes 0x24..0x27 are `fs_sectors_per_fat`, both little-endian;
bytes 258..509 are zero; bytes 510..511 are 55 AA; the volume ID (0x43..0x46) and
the label (0x47..0x51) are those of the template whatever `volume_name` is. -/
theorem build_dosbootsector_image (name : List Nat) (data_sectors fs_sectors_per_fat : Nat)
    (buf : Buffer) (hd : data_sectors < 2 ^ 32) (hf : fs_sectors_per_fat < 2 ^ 32) :
    (sectorImage (build_dosbootsector name data_sectors fs_sectors_per_fat buf)).length = 512
    ∧ (∀ i, i < 258 → ¬ (0x20 ≤ i ∧ i ≤ 0x27) →
        byteAt (sectorImage (build_dosbootsector name data_sectors fs_sectors_per_fat buf)) i
          = boot_bytes.getD i 0)
    ∧ le32 (sectorImage (build_dosbootsector name data_sectors fs_sectors_per_fat buf)) 0x20
        = data_sectors
    ∧ le32 (sectorImage (build_dosbootsector name data_sectors fs_sectors_per_fat buf)) 0x24
        = fs_sectors_per_fat
    ∧ (∀ i, 258 ≤ i → i ≤ 509 →
        byteAt (sectorImage (build_dosbootsector name data_sectors fs_sectors_per_fat buf)) i
          = 0)
    ∧ bytesAt (sectorImage (build_dosbootsector name data_sectors fs_sectors_per_fat buf)) 510 2
        = [0x55, 0xAA]
    ∧ bytesAt (sectorImage (build_dosbootsector name data_sectors fs_sectors_per_fat buf)) 0x43 4
        = bytesAt boot_bytes 0x43 4
    ∧ bytesAt (sectorImage (build_dosbootsector name data_sectors fs_sectors_per_fat buf)) 0x47 11
        = bytesAt boot_bytes 0x47 11 := by
  have key := build_dosbootsector_apply name data_sectors fs_sectors_per_fat buf
  refine ⟨length_sectorImage _, ?_, ?_, ?_, ?_, ?_, ?_, ?_⟩
  · intro i hi h
    rw [byteAt_sectorImage, if_pos (by omega), key]
    split_ifs <;> first | rfl | omega
  · simp only [le32, byteAt_sectorImage, key]
    norm_num
    omega
  · simp only [le32, byteAt_sectorImage, key]
    norm_num
    omega
  · intro i h1 h2
    rw [byteAt_sectorImage, if_pos (by omega), key]
    split_ifs <;> first | rfl | omega
  · simp [bytesAt, List.range_succ, byteAt_sectorImage, key]
  · simp [bytesAt, List.range_succ, byteAt_sectorImage, key]
    simp [byteAt]
  · simp [bytesAt, List.range_succ, byteAt_sectorImage, key]
    simp [byteAt]

/-- Witness for `build_dosbootsector_image`: the name of `main`, a 63488-sector
partition and 62 sectors per FAT, over a buffer of 0xE5. -/
theorem build_dosbootsector_image_witness :
    (63488 < 2 ^ 32) ∧ (62 < 2 ^ 32)
    ∧ le32 (sectorImage (build_dosbootsector volume_name 63488 62 (fun _ => 0xE5))) 0x20 = 63488
    ∧ le32 (sectorImage (build_dosbootsector volume_name 63488 62 (fun _ => 0xE5))) 0x24 = 62 :=
  ⟨by norm_num, by norm_num,
    (build_dosbootsector_image volume_name 63488 62 (fun _ => 0xE5)
      (by norm_num) (by norm_num)).2.2.1,
    (build_dosbootsector_image volume_name 63488 62 (fun _ => 0xE5)
      (by norm_num) (by norm_num)).2.2.2.1⟩

theorem build_fs_information_sector_apply (fs_clusters : Nat) (buf : Buffer) (j : Nat) :
    build_fs_information_sector fs_clusters buf j =
    if j = 511 then 0xaa else if j = 510 then 0x55
    else if j = 0x1ec then 0x02 + 1
    else if 0x1e8 ≤ j ∧ j < 0x1e8 + 4 then sub32 fs_clusters 3 / 2 ^ ((j - 0x1e8) * 8) % 256
    else if j = 0x1e7 then 0x61 else if j = 0x1e6 then 0x41
    else if j = 0x1e5 then 0x72 else if j = 0x1e4 then 0x72
    else if j = 3 then 0x41 else if j = 2 then 0x61
    else if j = 1 then 0x52 else if j = 0 then 0x52
    else if j < 512 then 0 else buf j := by
  unfold build_fs_information_sector
  simp only [store_apply, foldl_store_range, clear_sector_buffer_apply, shift_and_byte]

/-- C8: for every 32-bit `fs_clusters`, the image `build_fs_information_sector`
leaves has 512 bytes, the lead signature 52 52 61 41 at offset 0, the structure
signature 72 72 41 61 at offset 0x1E4, bytes 0x1E8..0x1EB that read little-endian
are `fs_clusters - 3` modulo `2^32` (so exactly `fs_clusters - 3` when
`fs_clusters >= 3`), bytes 0x1EC..0x1EF that read little-endian are 3, bytes
510..511 equal to 55 AA, and all other bytes zero. -/
theorem build_fs_information_sector_image (fs_clusters : Nat) (buf : Buffer)
    (h32 : fs_clusters < 2 ^ 32) :
    (sectorImage (build_fs_information_sector fs_clusters buf)).length = 512
    ∧ bytesAt (sectorImage (build_fs_information_sector fs_clusters buf)) 0 4
        = [0x52, 0x52, 0x61, 0x41]
    ∧ bytesAt (sectorImage (build_fs_information_sector fs_clusters buf)) 0x1E4 4
        = [0x72, 0x72, 0x41, 0x61]
    ∧ le32 (sectorImage (build_fs_information_sector fs_clusters buf)) 0x1E8
        = (fs_clusters + 2 ^ 32 - 3) % 2 ^ 32
    ∧ (3 ≤ fs_clusters →
        le32 (sectorImage (build_fs_information_sector fs_clusters buf)) 0x1E8
          = fs_clusters - 3)
    ∧ le32 (sectorImage (build_fs_information_sector fs_clusters buf)) 0x1EC = 3
    ∧ bytesAt (sectorImage (build_fs_information_sector fs_clusters buf)) 510 2
        = [0x55, 0xAA]
    ∧ ∀ i, i < 512 → ¬ i < 4 → ¬ (0x1E4 ≤ i ∧ i ≤ 0x1EF) → i ≠ 510 → i ≠ 511 →
        byteAt (sectorImage (build_fs_information_sector fs_clusters buf)) i = 0 := by
  have key := build_fs_information_sector_apply fs_clusters buf
  have hle : le32 (sectorImage (build_fs_information_sector fs_clusters buf)) 0x1E8
      = sub32 fs_clusters 3 := by
    have hs : sub32 fs_clusters 3 < 4294967296 := by
      unfold sub32
      omega
    simp only [le32, byteAt_sectorImage, key]
    generalize sub32 fs_clusters 3 = x at hs ⊢
    simp
    exact le_bytes_eq x hs
  refine ⟨length_sectorImage _, ?_, ?_, ?_, ?_, ?_, ?_, ?_⟩
  · simp [bytesAt, List.range_succ, byteAt_sectorImage, key]
  · simp [bytesAt, List.range_succ, byteAt_sectorImage, key]
  · rw [hle]; rfl
  · intro h3
    rw [hle]
    simp only [sub32]
    omega
  · simp [le32, byteAt_sectorImage, key]
  · simp [bytesAt, List.range_succ, byteAt_sectorImage, key]
  · intro i hi h1 h2 h3 h4
    have hne : i ≠ 0x1ec ∧ ¬ (0x1e8 ≤ i ∧ i < 0x1e8 + 4) ∧ i ≠ 0x1e7 ∧ i ≠ 0x1e6
        ∧ i ≠ 0x1e5 ∧ i ≠ 0x1e4 ∧ i ≠ 3 ∧ i ≠ 2 ∧ i ≠ 1 ∧ i ≠ 0 := by
      omega
    rw [byteAt_sectorImage, if_pos hi, key]
    simp only [if_neg h4, if_neg h3, hne, if_false, if_pos hi, not_false_eq_true]

/-- Witness for `build_fs_information_sector_image`: 7851 clusters over a buffer
of 0xE5. -/
theorem build_fs_information_sector_image_witness :
    (7851 < 2 ^ 32)
    ∧ le32 (sectorImage (build_fs_information_sector 7851 (fun _ => 0xE5))) 0x1E8 = 7848
    ∧ le32 (sectorImage (build_fs_information_sector 7851 (fun _ => 0xE5))) 0x1EC = 3 :=
  ⟨by norm_num,
    (build_fs_information_sector_image 7851 (fun _ => 0xE5) (by norm_num)).2.2.2.2.1
      (by norm_num),
    (build_fs_information_sector_image 7851 (fun _ => 0xE5) (by norm_num)).2.2.2.2.2.1⟩

/-- The media descriptor of the template, offset 0x15, is 0xF8. -/
theorem boot_bytes_media : byteAt boot_bytes 0x15 = 0xf8 := by
  decide

theorem build_empty_fat_apply (buf : Buffer) (j : Nat) :
    build_empty_fat buf j =
    if j < 12 then fat_bytes.getD j 0 else if j < 512 then 0 else buf j := by
  unfold build_empty_fat
  simp only [foldl_store_range_zero, clear_sector_buffer_apply]

/-- C9: for every prior buffer content, the image `build_empty_fat` leaves has 512
bytes; the first 12 are F8 FF FF 0F, FF FF FF 0F, F8 FF FF 0F and the other 500 are
zero. Read as little-endian 32-bit entries: entry 0 is 0x0FFFFFF8, its low byte
being the media descriptor at offset 0x15 of the boot sector template; entry 1 is
0x0FFFFFFF; entry 2 is an end-of-chain value (at least 0x0FFFFFF8 in its low 28
bits); every entry from 3 to 127 is 0. -/
theorem build_empty_fat_image (buf : Buffer) :
    (sectorImage (build_empty_fat buf)).length = 512
    ∧ bytesAt (sectorImage (build_empty_fat buf)) 0 12
        = [0xF8, 0xFF, 0xFF, 0x0F, 0xFF, 0xFF, 0xFF, 0x0F, 0xF8, 0xFF, 0xFF, 0x0F]
    ∧ (∀ i, 12 ≤ i → i < 512 → byteAt (sectorImage (build_empty_fat buf)) i = 0)
    ∧ le32 (sectorImage (build_empty_fat buf)) 0 = 0x0FFFFFF8
    ∧ byteAt (sectorImage (build_empty_fat buf)) 0 = byteAt boot_bytes 0x15
    ∧ byteAt boot_bytes 0x15 = 0xF8
    ∧ le32 (sectorImage (build_empty_fat buf)) 4 = 0x0FFFFFFF
    ∧ 0x0FFFFFF8 ≤ le32 (sectorImage (build_empty_fat buf)) 8 % 2 ^ 28
    ∧ ∀ k, 3 ≤ k → k ≤ 127 → le32 (sectorImage (build_empty_fat buf)) (4 * k) = 0 := by
  have key := build_empty_fat_apply buf
  have zero : ∀ i, 12 ≤ i → i < 512 → byteAt (sectorImage (build_empty_fat buf)) i = 0 := by
    intro i h1 h2
    rw [byteAt_sectorImage, if_pos h2, key]
    split_ifs <;> first | rfl | omega
  refine ⟨length_sectorImage _, ?_, zero, ?_, ?_, boot_bytes_media, ?_, ?_, ?_⟩
  · simp [bytesAt, List.range_succ, byteAt_sectorImage, key, fat_bytes]
  · simp [le32, byteAt_sectorImage, key, fat_bytes]
  · rw [boot_bytes_media]
    simp [byteAt_sectorImage, key, fat_bytes]
  · simp [le32, byteAt_sectorImage, key, fat_bytes]
  · simp [le32, byteAt_sectorImage, key, fat_bytes]
  · intro k h1 h2
    simp only [le32]
    rw [zero _ (by omega) (by omega), zero _ (by omega) (by omega),
      zero _ (by omega) (by omega), zero _ (by omega) (by omega)]

theorem build_root_dir_apply (name : List Nat) (buf : Buffer) (j : Nat) :
    build_root_dir name buf j =
    if 11 ≤ j ∧ j < 11 + 15 then dir_bytes.getD (j - 11) 0
    else if j < 11 then name.getD j 0 else if j < 512 then 0 else buf j := by
  unfold build_root_dir
  simp only [foldl_store_range, foldl_store_range_zero, clear_sector_buffer_apply]

/-- C10: for every 11-byte `name`, the image `build_root_dir name` leaves has 512
bytes; bytes 0..10 are `name`; bytes 11..25 are the 15 bytes of `dir_bytes`, the
attribute byte at offset 11 being 0x08 (volume label); bytes 26..511 are zero. -/
theorem build_root_dir_image (name : List Nat) (buf : Buffer) (hlen : name.length = 11) :
    (sectorImage (build_root_dir name buf)).length = 512
    ∧ bytesAt (sectorImage (build_root_dir name buf)) 0 11 = name
    ∧ bytesAt (sectorImage (build_root_dir name buf)) 11 15 = dir_bytes
    ∧ byteAt (sectorImage (build_root_dir name buf)) 11 = 0x08
    ∧ ∀ i, 26 ≤ i → i < 512 → byteAt (sectorImage (build_root_dir name buf)) i = 0 := by
  have key := build_root_dir_apply name buf
  refine ⟨length_sectorImage _, ?_, ?_, ?_, ?_⟩
  · match name, hlen with
    | [a0, a1, a2, a3, a4, a5, a6, a7, a8, a9, a10], _ =>
      simp [bytesAt, List.range_succ, byteAt_sectorImage, key]
  · simp [bytesAt, List.range_succ, byteAt_sectorImage, key, dir_bytes]
  · simp [byteAt_sectorImage, key, dir_bytes]
  · intro i h1 h2
    rw [byteAt_sectorImage, if_pos h2, key]
    split_ifs <;> first | rfl | omega

/-- Witness for `build_root_dir_image`: the volume name of `main` over a buffer of
0xE5. -/
theorem build_root_dir_image_witness :
    volume_name.length = 11
    ∧ bytesAt (sectorImage (build_root_dir volume_name (fun _ => 0xE5))) 0 11 = volume_name
    ∧ byteAt (sectorImage (build_root_dir volume_name (fun _ => 0xE5))) 11 = 0x08 :=
  ⟨rfl, (build_root_dir_image volume_name (fun _ => 0xE5) rfl).2.1,
    (build_root_dir_image volume_name (fun _ => 0xE5) rfl).2.2.2.1⟩

/-! ### The fitting loop -/

theorem fat_sectors_of_eq (fs : Nat) (h : fs < 4294967296) :
    fat_sectors_of fs = (fs + 127) / 128 := by
  simp only [fat_sectors_of, add32]
  norm_num
  split_ifs <;> omega

theorem sub32_lt (a b : Nat) : sub32 a b < 4294967296 := by
  unfold sub32
  omega

/-- A 32-bit subtraction that does not borrow is the exact difference. -/
theorem sub32_eq (a b : Nat) (h : b ≤ a) (ha : a < 4294967296) : sub32 a b = a - b := by
  unfold sub32
  omega

theorem sectors_required_of_eq (fs : Nat) (h2 : 2 ≤ fs)
    (h : 2 * ((fs + 127) / 128) + (fs - 2) * 8 < 4294967296) :
    sectors_required_of fs ((fs + 127) / 128) = 2 * ((fs + 127) / 128) + (fs - 2) * 8 := by
  simp only [sectors_required_of, add32, mul32, sectors_per_cluster]
  rw [sub32_eq fs 2 h2 (by omega)]
  omega

theorem fit_step_fs (available_sectors : Nat) (s : Fit) (ha : 16 ≤ available_sectors)
    (hs : FitExact s) (hgt : s.sectors_required > available_sectors) :
    2 ≤ (fit_step available_sectors s).fs_clusters
    ∧ (fit_step available_sectors s).fs_clusters < s.fs_clusters := by
  obtain ⟨h2, hfat, hreq, hlt⟩ := hs
  simp only [fit_step, sectors_per_cluster]
  rw [sub32_eq s.sectors_required available_sectors (by omega) hlt]
  split_ifs with h
  · rw [sub32_eq s.fs_clusters 1 (by omega) (by omega)]
    omega
  · have hd : (s.sectors_required - available_sectors) / (1 + 8) ≤ s.fs_clusters - 2 := by
      omega
    rw [sub32_eq s.fs_clusters _ (by omega) (by omega)]
    omega

theorem fit_step_exact (available_sectors : Nat) (s : Fit) (ha : 16 ≤ available_sectors)
    (hs : FitExact s) (hgt : s.sectors_required > available_sectors) :
    FitExact (fit_step available_sectors s)
    ∧ (fit_step available_sectors s).fs_clusters < s.fs_clusters := by
  obtain ⟨h2n, hdec⟩ := fit_step_fs available_sectors s ha hs hgt
  obtain ⟨h2, hfat, hreq, hlt⟩ := hs
  have hfs : (fit_step available_sectors s).fat_sectors
      = ((fit_step available_sectors s).fs_clusters + 127) / 128 :=
    fat_sectors_of_eq (fit_step available_sectors s).fs_clusters (by omega)
  have hrq : (fit_step available_sectors s).sectors_required
      = 2 * (((fit_step available_sectors s).fs_clusters + 127) / 128)
        + ((fit_step available_sectors s).fs_clusters - 2) * 8 := by
    have e : (fit_step available_sectors s).sectors_required
        = sectors_required_of (fit_step available_sectors s).fs_clusters
            (fit_step available_sectors s).fat_sectors := rfl
    rw [e, hfs]
    exact sectors_required_of_eq (fit_step available_sectors s).fs_clusters h2n (by omega)
  exact ⟨⟨h2n, hfs, by rw [hrq, hfs], by omega⟩, hdec⟩

theorem fit_loop_exact (available_sectors : Nat) (ha : 16 ≤ available_sectors) :
    ∀ (fuel : Nat) (s : Fit), FitExact s → s.fs_clusters ≤ fuel + 2 →
      ∃ r, fit_loop available_sectors fuel s = some r ∧ FitExact r
        ∧ r.sectors_required ≤ available_sectors := by
  intro fuel
  induction fuel with
  | zero =>
    intro s hs hf
    have hle : ¬ s.sectors_required > available_sectors := by
      obtain ⟨h2, hfat, hreq, _⟩ := hs
      omega
    exact ⟨s, by simp only [fit_loop, if_neg hle], hs, by omega⟩
  | succ n ih =>
    intro s hs hf
    by_cases hc : s.sectors_required > available_sectors
    · obtain ⟨hs', hdec⟩ := fit_step_exact available_sectors s ha hs hc
      obtain ⟨r, hr, hrs⟩ := ih _ hs' (by omega)
      exact ⟨r, by simp only [fit_loop, if_pos hc, hr], hrs⟩
    · exact ⟨s, by simp only [fit_loop, if_neg hc], hs, by omega⟩

/-- More fuel does not change a result the loop has reached. -/
theorem fit_loop_mono (available_sectors : Nat) :
    ∀ (n m : Nat) (s r : Fit), n ≤ m → fit_loop available_sectors n s = some r →
      fit_loop available_sectors m s = some r := by
  intro n
  induction n with
  | zero =>
    intro m s r _ h
    simp only [fit_loop] at h
    split_ifs at h with hc
    cases m <;> simp only [fit_loop, if_neg hc, h]
  | succ n ih =>
    intro m s r hnm h
    obtain ⟨k, rfl⟩ : ∃ k, m = k + 1 := ⟨m - 1, by omega⟩
    simp only [fit_loop] at h ⊢
    split_ifs at h ⊢ with hc
    · exact ih k _ _ (by omega) h
    · exact h

theorem fit_init_exact (available_sectors : Nat) (ha : 16 ≤ available_sectors)
    (hb : available_sectors ≤ 4286595055) : FitExact (fit_init available_sectors) := by
  have hfs : (fit_init available_sectors).fs_clusters = available_sectors / 8 := rfl
  have hfat : (fit_init available_sectors).fat_sectors
      = ((fit_init available_sectors).fs_clusters + 127) / 128 :=
    fat_sectors_of_eq (fit_init available_sectors).fs_clusters (by omega)
  have hrq : (fit_init available_sectors).sectors_required
      = 2 * (((fit_init available_sectors).fs_clusters + 127) / 128)
        + ((fit_init available_sectors).fs_clusters - 2) * 8 := by
    have e : (fit_init available_sectors).sectors_required
        = sectors_required_of (fit_init available_sectors).fs_clusters
            (fit_init available_sectors).fat_sectors := rfl
    rw [e, hfat]
    exact sectors_required_of_eq (fit_init available_sectors).fs_clusters (by omega) (by omega)
  exact ⟨by omega, hfat, by rw [hrq, hfat], by omega⟩

/-- C1, as amended: for every card of 2632 to 4286597671 sectors (at least 16
available sectors, and an initial estimate whose `sectors_required` stays below
`2^32`) the fitting loop terminates, within `sdcard_sectors / 8` executions of its
body, and the resulting `fs_clusters` and `fat_sectors` satisfy, in exact integer
arithmetic, `2*fat_sectors + (fs_clusters - 2)*8 <= (sdcard_sectors - 2048) - 568`. -/
theorem plan_fits (sdcard_sectors : Nat) (hlo : 2632 ≤ sdcard_sectors)
    (hhi : sdcard_sectors ≤ 4286597671) :
    ∃ g, (∀ fuel, sdcard_sectors / 8 ≤ fuel → plan fuel sdcard_sectors = some g)
      ∧ 2 * (g.fat_sectors : Int) + ((g.fs_clusters : Int) - 2) * 8
          ≤ ((sdcard_sectors : Int) - 2048) - 568 := by
  have hp : sub32 sdcard_sectors 0x0800 = sdcard_sectors - 2048 :=
    sub32_eq _ _ (by omega) (by omega)
  have hav : sub32 (sdcard_sectors - 2048) reserved_sectors = sdcard_sectors - 2616 := by
    rw [sub32_eq _ _ (by unfold reserved_sectors; omega) (by omega)]
    unfold reserved_sectors
    omega
  have hinit := fit_init_exact (sdcard_sectors - 2616) (by omega) (by omega)
  have hfs : (fit_init (sdcard_sectors - 2616)).fs_clusters = (sdcard_sectors - 2616) / 8 := rfl
  obtain ⟨r, hr, ⟨h2, hfat, hreq, hlt⟩, hle⟩ :=
    fit_loop_exact (sdcard_sectors - 2616) (by omega) (sdcard_sectors / 8) _ hinit (by omega)
  refine ⟨layout sdcard_sectors (sdcard_sectors - 2048) (sdcard_sectors - 2616) r, ?_, ?_⟩
  · intro fuel hfuel
    simp only [plan, hp, hav, fit_loop_mono _ _ _ _ _ hfuel hr, Option.map_some']
  · show 2 * (r.fat_sectors : Int) + ((r.fs_clusters : Int) - 2) * 8 ≤ _
    omega

/-- Witness for `plan_fits`: a card of 0x10000 sectors. -/
theorem plan_fits_witness :
    2632 ≤ 65536 ∧ 65536 ≤ 4286597671
    ∧ ∃ g, (∀ fuel, 65536 / 8 ≤ fuel → plan fuel 65536 = some g)
      ∧ 2 * (g.fat_sectors : Int) + ((g.fs_clusters : Int) - 2) * 8
          ≤ ((65536 : Nat) : Int) - 2048 - 568 :=
  ⟨by norm_num, by norm_num, plan_fits 65536 (by norm_num) (by norm_num)⟩

/-- C1 fails as stated, at both ends of the range. For a card of 2617 sectors (one
available sector) `fs_clusters - 2` wraps, the loop ends after 11 executions with
`fs_clusters = 3750770662`, and the exact sum is far above the one available
sector. For a card of `2^32 - 1` sectors the initial `sectors_required` wraps to
8385964, the loop body never runs, and the exact sum 4303353260 exceeds the
4294964679 available sectors. -/
theorem plan_fits_counterexample :
    (plan 11 2617 = some
        { sdcard_sectors := 2617, partition_sectors := 569, available_sectors := 1,
          fs_clusters := 3750770662, fat_sectors := 29302896, sectors_required := 0,
          fat1_sector := 2616, fat2_sector := 29305512, rootdir_sector := 58608408,
          fs_data_sectors := 4236361520 }
      ∧ ¬ (2 * (29302896 : Int) + ((3750770662 : Int) - 2) * 8 ≤ (2617 : Int) - 2048 - 568))
    ∧ (plan 0 4294967295 = some
        { sdcard_sectors := 4294967295, partition_sectors := 4294965247,
          available_sectors := 4294964679, fs_clusters := 536870584,
          fat_sectors := 4194302, sectors_required := 8385964,
          fat1_sector := 2616, fat2_sector := 4196918, rootdir_sector := 8391220,
          fs_data_sectors := 4294964672 }
      ∧ ¬ (2 * (4194302 : Int) + ((536870584 : Int) - 2) * 8
            ≤ (4294967295 : Int) - 2048 - 568)) := by
  refine ⟨⟨by decide, by norm_num⟩, ⟨by decide, by norm_num⟩⟩

/-- The range 2632..4286597671 cannot be widened: the exact inequality already
fails for a card of 2631 sectors and for one of 4286597672 sectors. -/
theorem plan_fits_range_tight :
    ((plan 12 2631).map (fun g => (g.fs_clusters, g.fat_sectors))
        = some (3750770663, 29302896)
      ∧ ¬ (2 * (29302896 : Int) + ((3750770663 : Int) - 2) * 8 ≤ (2631 : Int) - 2048 - 568))
    ∧ ((plan 0 4286597672).map (fun g => (g.fs_clusters, g.fat_sectors))
        = some (535824382, 4186128)
      ∧ ¬ (2 * (4186128 : Int) + ((535824382 : Int) - 2) * 8
            ≤ (4286597672 : Int) - 2048 - 568)) := by
  refine ⟨⟨by decide, by norm_num⟩, ⟨by decide, by norm_num⟩⟩

theorem fitInv_init (available_sectors : Nat) (h : available_sectors < 4294967296) :
    FitInv (fit_init available_sectors) := by
  refine ⟨?_, rfl⟩
  simp only [fit_init, sectors_per_cluster]
  omega

theorem fitInv_step (available_sectors : Nat) (s : Fit) :
    FitInv (fit_step available_sectors s) :=
  ⟨sub32_lt _ _, rfl⟩

/-- Every state the loop returns satisfies `FitInv` and the exit condition. -/
theorem fit_loop_inv (available_sectors : Nat) :
    ∀ (fuel : Nat) (s r : Fit), FitInv s → fit_loop available_sectors fuel s = some r →
      FitInv r ∧ r.sectors_required ≤ available_sectors := by
  intro fuel
  induction fuel with
  | zero =>
    intro s r hs h
    simp only [fit_loop] at h
    split_ifs at h with hc
    cases h
    exact ⟨hs, by omega⟩
  | succ n ih =>
    intro s r hs h
    simp only [fit_loop] at h
    split_ifs at h with hc
    · exact ih _ _ (fitInv_step _ _) h
    · cases h
      exact ⟨hs, by omega⟩

/-- C5: for every card size for which the fitting loop terminates, whether or not
its body ran, the returned `fat_sectors` is `fs_clusters / 128` rounded up: it is
`(fs_clusters + 127) / 128`, that is the least `k` with `fs_clusters <= 128 * k`. -/
theorem plan_fat_sectors_ceil (fuel sdcard_sectors : Nat) (g : Geometry)
    (h : plan fuel sdcard_sectors = some g) :
    g.fat_sectors = (g.fs_clusters + 127) / 128
    ∧ g.fs_clusters ≤ 128 * g.fat_sectors
    ∧ ∀ k, g.fs_clusters ≤ 128 * k → g.fat_sectors ≤ k := by
  simp only [plan, Option.map_eq_some'] at h
  obtain ⟨s, hs, rfl⟩ := h
  have hinv := (fit_loop_inv _ _ _ _ (fitInv_init _ (sub32_lt _ _)) hs).1
  have hfat : s.fat_sectors = (s.fs_clusters + 127) / 128 := by
    rw [hinv.2, fat_sectors_of_eq _ hinv.1]
  show s.fat_sectors = (s.fs_clusters + 127) / 128 ∧ s.fs_clusters ≤ 128 * s.fat_sectors
    ∧ ∀ k, s.fs_clusters ≤ 128 * k → s.fat_sectors ≤ k
  refine ⟨hfat, by omega, ?_⟩
  intro k hk
  omega

/-- Witness for `plan_fat_sectors_ceil`: a card of 0x10000 sectors, three
executions of the loop body. -/
theorem plan_fat_sectors_ceil_witness :
    plan 3 65536 = some
      { sdcard_sectors := 65536, partition_sectors := 63488, available_sectors := 62920,
        fs_clusters := 7851, fat_sectors := 62, sectors_required := 62916,
        fat1_sector := 2616, fat2_sector := 2678, rootdir_sector := 2740,
        fs_data_sectors := 62808 }
    ∧ (62 : Nat) = (7851 + 127) / 128 :=
  ⟨by decide,
    (plan_fat_sectors_ceil 3 65536
      { sdcard_sectors := 65536, partition_sectors := 63488, available_sectors := 62920,
        fs_clusters := 7851, fat_sectors := 62, sectors_required := 62916,
        fat1_sector := 2616, fat2_sector := 2678, rootdir_sector := 2740,
        fs_data_sectors := 62808 } (by decide)).1⟩

/-! ### The write sequence of `main` -/

/-- The sectors `format` writes, in call order, `none` standing for an erase. -/
theorem format_written (g : Geometry) (m : Machine) :
    (format g m).calls.map Call.written
      = m.calls.map Call.written
        ++ [some 0, none, some 0x0800, some 0x0806, some 0x0801, some 0x0807,
            some g.fat1_sector, some g.fat2_sector, some g.rootdir_sector,
            none, none, none, none, none] := by
  simp only [format, sdcard_writesector, sdcard_erase, Machine.build, Call.written,
    List.map_append, List.map_cons, List.map_nil, List.append_assoc, List.cons_append,
    List.nil_append]

/-- Below 2616 sectors both subtractions of lines 270-272 together wrap once. -/
theorem wrapped_available (sdcard_sectors : Nat) (h : sdcard_sectors < 2616) :
    sub32 (sub32 sdcard_sectors 0x0800) reserved_sectors = sdcard_sectors + 4294964680 := by
  simp only [sub32, reserved_sectors]
  omega

theorem mod_wrap_once (x : Nat) (h1 : 4294967296 ≤ x) (h2 : x < 8589934592) :
    x % 4294967296 = x - 4294967296 := by
  omega

/-- With a wrapped `available_sectors` the initial `sectors_required` wraps as well
and the loop condition is false on entry. -/
theorem fit_init_wrapped (available_sectors : Nat) (hlo : 4294964680 ≤ available_sectors)
    (hhi : available_sectors < 4294967296) :
    (fit_init available_sectors).sectors_required ≤ available_sectors := by
  have hfs : (fit_init available_sectors).fs_clusters = available_sectors / 8 := rfl
  have hfat : (fit_init available_sectors).fat_sectors
      = ((fit_init available_sectors).fs_clusters + 127) / 128 :=
    fat_sectors_of_eq (fit_init available_sectors).fs_clusters (by omega)
  have e : (fit_init available_sectors).sectors_required
      = sectors_required_of (fit_init available_sectors).fs_clusters
          (fit_init available_sectors).fat_sectors := rfl
  rw [e, hfat]
  generalize (fit_init available_sectors).fs_clusters = fs at hfs ⊢
  simp only [sectors_required_of, add32, mul32, sectors_per_cluster]
  rw [sub32_eq fs 2 (by omega) (by omega),
    Nat.mod_eq_of_lt (by omega : 2 * ((fs + 127) / 128) < 4294967296),
    Nat.mod_eq_of_lt (by omega : (fs - 2) * 8 < 4294967296),
    mod_wrap_once _ (by omega) (by omega)]
  omega

/-- The loop returns at once when its condition is false on entry. -/
theorem fit_loop_exit (available_sectors fuel : Nat) (s : Fit)
    (h : s.sectors_required ≤ available_sectors) :
    fit_loop available_sectors fuel s = some s := by
  cases fuel <;> simp only [fit_loop, if_neg (Nat.not_lt.mpr h)]

/-- More fuel does not change a geometry `plan` has reached. -/
theorem plan_mono (n m sdcard_sectors : Nat) (g : Geometry) (hnm : n ≤ m)
    (h : plan n sdcard_sectors = some g) : plan m sdcard_sectors = some g := by
  simp only [plan, Option.map_eq_some'] at h ⊢
  obtain ⟨s, hs, hg⟩ := h
  exact ⟨s, fit_loop_mono _ n m _ _ hnm hs, hg⟩

/-- Once the geometry is computed `main` runs the write sequence on it. -/
theorem main_of_plan (fuel sdcard_sectors : Nat) (g : Geometry) (m : Machine)
    (h : plan fuel sdcard_sectors = some g) :
    main fuel sdcard_sectors m = some (format g m) := by
  unfold main
  rw [h]

/-- The geometry for a card of exactly 2616 sectors (no available sector). -/
theorem plan_2616 :
    plan 11 2616 = some (layout 2616 568 0 ⟨3750770662, 29302896, 0⟩) := by
  decide

/-- For a card of at most 2616 sectors the fitting loop terminates within 11
executions of its body, on wrapped values of `partition_sectors` and
`available_sectors`. -/
theorem plan_small_card (fuel sdcard_sectors : Nat) (hfuel : 11 ≤ fuel)
    (h : sdcard_sectors ≤ 2616) :
    ∃ g, plan fuel sdcard_sectors = some g
      ∧ g.partition_sectors = (sdcard_sectors + 2 ^ 32 - 2048) % 2 ^ 32
      ∧ g.available_sectors = (sdcard_sectors + 2 ^ 32 - 2616) % 2 ^ 32 := by
  rcases Nat.lt_or_ge sdcard_sectors 2616 with hlt | hge
  · have hav := wrapped_available sdcard_sectors hlt
    have hx := fit_loop_exit _ fuel _ (fit_init_wrapped (sdcard_sectors + 4294964680)
      (by omega) (by omega))
    refine ⟨layout sdcard_sectors (sub32 sdcard_sectors 0x0800)
      (sdcard_sectors + 4294964680) (fit_init (sdcard_sectors + 4294964680)), ?_, ?_, ?_⟩
    · simp only [plan, hav, hx, Option.map_some']
    · show sub32 sdcard_sectors 0x0800 = _
      unfold sub32
      omega
    · show sdcard_sectors + 4294964680 = _
      omega
  · obtain rfl : sdcard_sectors = 2616 := by omega
    exact ⟨_, plan_mono 11 fuel 2616 _ hfuel plan_2616, by decide, by decide⟩

/-- C2, as amended: `main` has no check of the card size. For every card of at
most 2616 sectors the subtractions of lines 270-272 wrap modulo `2^32`, the fitting
loop nevertheless terminates (11 executions of its body suffice), and `main` goes
on to make all of its 8 `sdcard_writesector` and 6 `sdcard_erase` calls, the first
being the write of sector 0. -/
theorem main_no_size_check (fuel sdcard_sectors : Nat) (hfuel : 11 ≤ fuel)
    (h : sdcard_sectors ≤ 2616) (m : Machine) :
    ∃ g, plan fuel sdcard_sectors = some g
      ∧ g.partition_sectors = (sdcard_sectors + 2 ^ 32 - 2048) % 2 ^ 32
      ∧ g.available_sectors = (sdcard_sectors + 2 ^ 32 - 2616) % 2 ^ 32
      ∧ main fuel sdcard_sectors m = some (format g m)
      ∧ (format g m).calls.map Call.written
          = m.calls.map Call.written
            ++ [some 0, none, some 0x0800, some 0x0806, some 0x0801, some 0x0807,
                some g.fat1_sector, some g.fat2_sector, some g.rootdir_sector,
                none, none, none, none, none] := by
  obtain ⟨g, hg, hp, ha⟩ := plan_small_card fuel sdcard_sectors hfuel h
  exact ⟨g, hg, hp, ha, main_of_plan _ _ _ _ hg, format_written g m⟩

/-- Witness for `main_no_size_check`: a card of exactly 2616 sectors, a blank
machine. -/
theorem main_no_size_check_witness :
    11 ≤ 11 ∧ 2616 ≤ 2616
    ∧ ∃ g, plan 11 2616 = some g
      ∧ g.partition_sectors = (2616 + 2 ^ 32 - 2048) % 2 ^ 32
      ∧ g.available_sectors = (2616 + 2 ^ 32 - 2616) % 2 ^ 32
      ∧ main 11 2616 Machine.blank = some (format g Machine.blank)
      ∧ (format g Machine.blank).calls.map Call.written
          = Machine.blank.calls.map Call.written
            ++ [some 0, none, some 0x0800, some 0x0806, some 0x0801, some 0x0807,
                some g.fat1_sector, some g.fat2_sector, some g.rootdir_sector,
                none, none, none, none, none] :=
  ⟨by norm_num, by norm_num, main_no_size_check 11 2616 (by norm_num) (by norm_num) Machine.blank⟩

/-- C2 fails as stated. For a card of exactly 2616 sectors `available_sectors`
is 0, no error is raised, the loop ends with `fs_clusters = 3750770662`, and `main`
writes sectors 0, 2048, 2054, 2049, 2055, 2616, 29305512 and 58608408. For a card
of 0 sectors `partition_sectors` wraps to 4294965248 and `main` writes as well. -/
theorem main_no_size_check_counterexample :
    (plan 11 2616).map (fun g => (g.partition_sectors, g.available_sectors, g.fs_clusters))
      = some (568, 0, 3750770662)
    ∧ (main 11 2616 Machine.blank).map (fun m => m.calls.map Call.written)
      = some [some 0, none, some 2048, some 2054, some 2049, some 2055,
          some 2616, some 29305512, some 58608408, none, none, none, none, none]
    ∧ (plan 0 0).map (fun g => (g.partition_sectors, g.available_sectors))
      = some (4294965248, 4294964680)
    ∧ (main 0 0 Machine.blank).map (fun m => m.calls.map Call.written)
      = some [some 0, none, some 2048, some 2054, some 2049, some 2055,
          some 2616, some 4196918, some 8391220, none, none, none, none, none] := by
  refine ⟨by decide, by decide, by decide, by decide⟩

/-! ### Defects of the write sequence -/

theorem sub32_fat1 : sub32 2616 1 = 2615 := by decide

/-- Every run of `format` leaves sector 0x0807 all zero: the erase of
`0x0806+1 .. fat1_sector-1` starts at the sector the FS information backup was
written to. -/
theorem format_card_0x0807 (g : Geometry) (m : Machine) (h : g.fat1_sector = 2616) :
    (format g m).card 0x0807 = List.replicate 512 0 := by
  simp only [format, sdcard_writesector, sdcard_erase, Machine.build, h, sub32_fat1]
  split_ifs <;> first | rfl | omega

/-- The first FAT always starts at sector 2616. -/
theorem plan_fat1_sector (fuel sdcard_sectors : Nat) (g : Geometry)
    (h : plan fuel sdcard_sectors = some g) : g.fat1_sector = 2616 := by
  simp only [plan, Option.map_eq_some'] at h
  obtain ⟨s, _, rfl⟩ := h
  rfl

/-- Every completed run of `main` leaves sector 0x0807 all zero. -/
theorem main_card_0x0807 (fuel sdcard_sectors : Nat) (m r : Machine)
    (h : main fuel sdcard_sectors m = some r) : r.card 0x0807 = List.replicate 512 0 := by
  unfold main at h
  split at h
  · cases h
  · rename_i g hg
    cases h
    exact format_card_0x0807 g m (plan_fat1_sector _ _ _ hg)

/-- With at least one sector per FAT and offsets that did not wrap, every sector
`format` writes, other than 0x0807, holds at the end the image written to it. -/
theorem format_keeps_written (g : Geometry) (m : Machine) (h1 : g.fat1_sector = 2616)
    (hf : 1 ≤ g.fat_sectors) (hb : g.fat_sectors ≤ 33554432)
    (h2 : g.fat2_sector = 2616 + g.fat_sectors)
    (h3 : g.rootdir_sector = 2616 + 2 * g.fat_sectors) (s : Nat) (img : List Nat)
    (hmem : Call.writesector s img ∈ (format g m).calls.drop m.calls.length)
    (hs : s ≠ 0x0807) : (format g m).card s = img := by
  have e1 : sub32 2616 1 = 2615 := by decide
  have e2 : add32 2616 1 = 2617 := by decide
  have e3 : sub32 (2616 + g.fat_sectors) 1 = 2615 + g.fat_sectors := by
    unfold sub32; omega
  have e4 : add32 (2616 + g.fat_sectors) 1 = 2617 + g.fat_sectors := by
    unfold add32; omega
  have e5 : sub32 (2616 + 2 * g.fat_sectors) 1 = 2615 + 2 * g.fat_sectors := by
    unfold sub32; omega
  have e6 : add32 (2616 + 2 * g.fat_sectors) 1 = 2617 + 2 * g.fat_sectors := by
    unfold add32; omega
  have e7 : sub32 (add32 (2617 + 2 * g.fat_sectors) sectors_per_cluster) 1
      = 2624 + 2 * g.fat_sectors := by
    unfold sub32 add32 sectors_per_cluster; omega
  simp only [format, sdcard_writesector, sdcard_erase, Machine.build, h1, h2, h3, e1, e2, e3,
    e4, e5, e6, e7, List.append_assoc, List.cons_append, List.nil_append,
    List.drop_left, List.mem_cons, Call.writesector.injEq, List.mem_singleton, false_or,
    or_false, reduceCtorEq, List.mem_nil_iff] at hmem ⊢
  generalize g.fat_sectors = f at *
  clear h1 h2 h3 e1 e2 e3 e4 e5 e6 e7
  rcases hmem with h | h | h | h | h | h | h | h <;> obtain ⟨rfl, rfl⟩ := h
  all_goals first
    | exact absurd rfl hs
    | (repeat (first | rw [if_neg (by omega)] | rw [if_pos (by omega)]))

/-- The offsets `plan` derives: the first FAT at 2616, the second FAT and the root
directory one and two FAT lengths further, none of the additions wrapping. -/
theorem plan_layout (fuel sdcard_sectors : Nat) (g : Geometry)
    (h : plan fuel sdcard_sectors = some g) :
    g.fat1_sector = 2616 ∧ g.fat_sectors ≤ 33554432
      ∧ g.fat2_sector = 2616 + g.fat_sectors
      ∧ g.rootdir_sector = 2616 + 2 * g.fat_sectors := by
  simp only [plan, Option.map_eq_some'] at h
  obtain ⟨s, hs, rfl⟩ := h
  have hinv := (fit_loop_inv _ _ _ _ (fitInv_init _ (sub32_lt _ _)) hs).1
  have hfat : s.fat_sectors = (s.fs_clusters + 127) / 128 := by
    rw [hinv.2, fat_sectors_of_eq _ hinv.1]
  have hlt := hinv.1
  have hb : s.fat_sectors ≤ 33554432 := by omega
  have e1 : add32 0x0800 reserved_sectors = 2616 := by decide
  have e2 : add32 2616 s.fat_sectors = 2616 + s.fat_sectors := by
    unfold add32; omega
  have e3 : add32 (2616 + s.fat_sectors) s.fat_sectors = 2616 + 2 * s.fat_sectors := by
    unfold add32; omega
  refine ⟨e1, hb, ?_, ?_⟩
  · show add32 (add32 0x0800 reserved_sectors) s.fat_sectors = 2616 + s.fat_sectors
    rw [e1, e2]
  · show add32 (add32 (add32 0x0800 reserved_sectors) s.fat_sectors) s.fat_sectors
      = 2616 + 2 * s.fat_sectors
    rw [e1, e2, e3]

/-- Every completed run of `main` with at least one sector per FAT leaves each
sector it wrote, other than 0x0807, holding the image written to it. -/
theorem main_keeps_written (fuel sdcard_sectors : Nat) (m : Machine) (g : Geometry)
    (hg : plan fuel sdcard_sectors = some g) (hf : 1 ≤ g.fat_sectors) (s : Nat)
    (img : List Nat)
    (hmem : Call.writesector s img ∈ (format g m).calls.drop m.calls.length)
    (hs : s ≠ 0x0807) :
    main fuel sdcard_sectors m = some (format g m) ∧ (format g m).card s = img := by
  obtain ⟨h1, hb, h2, h3⟩ := plan_layout fuel sdcard_sectors g hg
  exact ⟨main_of_plan _ _ _ _ hg, format_keeps_written g m h1 hf hb h2 h3 s img hmem hs⟩

/-- C3 does not hold of the code: on a card of 0x10000 sectors (`fat_sectors = 62`)
`main` writes the FS information image to sectors 2049 and 2055, and then erases
2055..2615. At the end sector 2049 starts with the lead signature 52 52 61 41
while sector 2055, the backup, is all zero. -/
theorem main_erases_fs_information_backup :
    (main 3 65536 Machine.blank).map (fun m => m.calls.map Call.written)
      = some [some 0, none, some 2048, some 2054, some 2049, some 2055,
          some 2616, some 2678, some 2740, none, none, none, none, none]
    ∧ (main 3 65536 Machine.blank).map (fun m => m.calls.drop 9)
      = some [Call.erase 2050 2053, Call.erase 2055 2615, Call.erase 2617 2677,
          Call.erase 2679 2739, Call.erase 2741 2748]
    ∧ (main 3 65536 Machine.blank).map (fun m => bytesAt (m.card 2049) 0 4)
      = some [0x52, 0x52, 0x61, 0x41]
    ∧ (main 3 65536 Machine.blank).map (fun m => m.card 2055)
      = some (List.replicate 512 0) := by
  refine ⟨by decide, by decide, by decide, by decide⟩

/-- C4 does not hold of the code: on a card of 0x10000 sectors the label field
(0x47..0x51) of the boot sector `main` writes at 2048 is "M.E.G.A. 65", the label
of the template, while the name field (0..10) of the root directory sector it
writes at 2740 is "M.E.G.A.65!", the array `volume_name`. -/
theorem main_labels_differ :
    (main 3 65536 Machine.blank).map (fun m => bytesAt (m.card 2048) 0x47 11)
      = some [0x4d, 0x2e, 0x45, 0x2e, 0x47, 0x2e, 0x41, 0x2e, 0x20, 0x36, 0x35]
    ∧ (main 3 65536 Machine.blank).map (fun m => bytesAt (m.card 2740) 0 11)
      = some [0x4d, 0x2e, 0x45, 0x2e, 0x47, 0x2e, 0x41, 0x2e, 0x36, 0x35, 0x21] := by
  refine ⟨by decide, by decide⟩

/-- Whatever the other arguments and the prior buffers, the label of the boot
sector built for `volume_name` differs from the name in the root directory built
for `volume_name`. -/
theorem boot_label_ne_root_name (data_sectors fs_sectors_per_fat : Nat) (buf buf2 : Buffer) :
    bytesAt (sectorImage (build_dosbootsector volume_name data_sectors fs_sectors_per_fat buf))
        0x47 11
      ≠ bytesAt (sectorImage (build_root_dir volume_name buf2)) 0 11 := by
  have h1 : bytesAt (sectorImage
      (build_dosbootsector volume_name data_sectors fs_sectors_per_fat buf)) 0x47 11
      = bytesAt boot_bytes 0x47 11 := by
    simp [bytesAt, List.range_succ, byteAt_sectorImage, build_dosbootsector_apply]
    simp [byteAt]
  have h2 : bytesAt (sectorImage (build_root_dir volume_name buf2)) 0 11 = volume_name := by
    simp [bytesAt, List.range_succ, byteAt_sectorImage, build_root_dir_apply, volume_name]
  rw [h1, h2, boot_bytes_label]
  decide

/-! ### Builders and the shared buffer -/

/-- Two buffers that agree on indices 0..511 give the same sector image. -/
theorem sectorImage_congr (b1 b2 : Buffer) (h : ∀ j, j < 512 → b1 j = b2 j) :
    sectorImage b1 = sectorImage b2 := by
  unfold sectorImage
  apply List.map_congr_left
  intro j hj
  exact h j (List.mem_range.mp hj)

/-- Outside indices 0..511 `build_mbr` leaves the buffer as it was. -/
theorem build_mbr_frame (partition_sectors : Nat) (buf : Buffer) (j : Nat) (hj : 512 ≤ j) :
    build_mbr partition_sectors buf j = buf j := by
  unfold build_mbr
  simp only [store_apply, clear_sector_buffer_apply]
  repeat (rw [if_neg (by omega)])

/-- On indices 0..511 the result of `build_mbr` does not depend on the buffer it
started from. -/
theorem build_mbr_indep (partition_sectors : Nat) (b1 b2 : Buffer) (j : Nat) (hj : j < 512) :
    build_mbr partition_sectors b1 j = build_mbr partition_sectors b2 j := by
  unfold build_mbr
  simp only [store_apply, clear_sector_buffer_apply, if_pos hj]

theorem sectorImage_build_mbr (partition_sectors : Nat) (buf : Buffer) :
    sectorImage (build_mbr partition_sectors buf) = mbr_image partition_sectors :=
  sectorImage_congr _ _ (fun j hj => build_mbr_indep partition_sectors buf _ j hj)

theorem sectorImage_build_dosbootsector (name : List Nat) (data_sectors fs_sectors_per_fat : Nat)
    (buf : Buffer) :
    sectorImage (build_dosbootsector name data_sectors fs_sectors_per_fat buf)
      = boot_image name data_sectors fs_sectors_per_fat := by
  apply sectorImage_congr
  intro j hj
  simp only [build_dosbootsector_apply, if_pos hj]

theorem sectorImage_build_fs_information_sector (fs_clusters : Nat) (buf : Buffer) :
    sectorImage (build_fs_information_sector fs_clusters buf)
      = fs_information_image fs_clusters := by
  apply sectorImage_congr
  intro j hj
  simp only [build_fs_information_sector_apply, if_pos hj]

theorem sectorImage_build_empty_fat (buf : Buffer) :
    sectorImage (build_empty_fat buf) = empty_fat_image := by
  apply sectorImage_congr
  intro j hj
  simp only [build_empty_fat_apply, if_pos hj]

theorem sectorImage_build_root_dir (name : List Nat) (buf : Buffer) :
    sectorImage (build_root_dir name buf) = root_dir_image name := by
  apply sectorImage_congr
  intro j hj
  simp only [build_root_dir_apply, if_pos hj]

/-- C11: every builder writes only indices 0..511 of the sector buffer (an index
from 512 on keeps its content), what it leaves is one image of exactly 512 bytes,
and for `build_mbr`, `build_dosbootsector` and `build_fs_information_sector`, for
every argument value, byte 510 is 0x55 and byte 511 is 0xAA. -/
theorem builders_stay_in_sector (partition_sectors data_sectors fs_sectors_per_fat
    fs_clusters : Nat) (name : List Nat) (buf : Buffer) :
    ((∀ j, 512 ≤ j → build_mbr partition_sectors buf j = buf j)
      ∧ (∀ j, 512 ≤ j →
          build_dosbootsector name data_sectors fs_sectors_per_fat buf j = buf j)
      ∧ (∀ j, 512 ≤ j → build_fs_information_sector fs_clusters buf j = buf j)
      ∧ (∀ j, 512 ≤ j → build_empty_fat buf j = buf j)
      ∧ (∀ j, 512 ≤ j → build_root_dir name buf j = buf j))
    ∧ ((sectorImage (build_mbr partition_sectors buf)).length = 512
      ∧ (sectorImage
          (build_dosbootsector name data_sectors fs_sectors_per_fat buf)).length = 512
      ∧ (sectorImage (build_fs_information_sector fs_clusters buf)).length = 512
      ∧ (sectorImage (build_empty_fat buf)).length = 512
      ∧ (sectorImage (build_root_dir name buf)).length = 512)
    ∧ (bytesAt (sectorImage (build_mbr partition_sectors buf)) 510 2 = [0x55, 0xAA]
      ∧ bytesAt (sectorImage
          (build_dosbootsector name data_sectors fs_sectors_per_fat buf)) 510 2
          = [0x55, 0xAA]
      ∧ bytesAt (sectorImage (build_fs_information_sector fs_clusters buf)) 510 2
          = [0x55, 0xAA]) := by
  refine ⟨⟨build_mbr_frame _ _, ?_, ?_, ?_, ?_⟩,
    ⟨length_sectorImage _, length_sectorImage _, length_sectorImage _,
      length_sectorImage _, length_sectorImage _⟩, ⟨?_, ?_, ?_⟩⟩
  · intro j hj
    rw [build_dosbootsector_apply]
    repeat (rw [if_neg (by omega)])
  · intro j hj
    rw [build_fs_information_sector_apply]
    repeat (rw [if_neg (by omega)])
  · intro j hj
    rw [build_empty_fat_apply]
    repeat (rw [if_neg (by omega)])
  · intro j hj
    rw [build_root_dir_apply]
    repeat (rw [if_neg (by omega)])
  · simp [bytesAt, List.range_succ, byteAt_sectorImage, build_mbr]
  · simp [bytesAt, List.range_succ, byteAt_sectorImage, build_dosbootsector_apply]
  · simp [bytesAt, List.range_succ, byteAt_sectorImage, build_fs_information_sector_apply]

/-- C12: no residual byte leaks between sectors. For each of the five builders,
every argument value and every two initial contents of the sector buffer, the 512
bytes the builder leaves are the same: the image depends on the arguments only. -/
theorem builders_ignore_prior_buffer (partition_sectors data_sectors fs_sectors_per_fat
    fs_clusters : Nat) (name : List Nat) (buf1 buf2 : Buffer) :
    sectorImage (build_mbr partition_sectors buf1)
        = sectorImage (build_mbr partition_sectors buf2)
    ∧ sectorImage (build_dosbootsector name data_sectors fs_sectors_per_fat buf1)
        = sectorImage (build_dosbootsector name data_sectors fs_sectors_per_fat buf2)
    ∧ sectorImage (build_fs_information_sector fs_clusters buf1)
        = sectorImage (build_fs_information_sector fs_clusters buf2)
    ∧ sectorImage (build_empty_fat buf1) = sectorImage (build_empty_fat buf2)
    ∧ sectorImage (build_root_dir name buf1) = sectorImage (build_root_dir name buf2) := by
  refine ⟨?_, ?_, ?_, ?_, ?_⟩
  · rw [sectorImage_build_mbr, sectorImage_build_mbr]
  · rw [sectorImage_build_dosbootsector, sectorImage_build_dosbootsector]
  · rw [sectorImage_build_fs_information_sector, sectorImage_build_fs_information_sector]
  · rw [sectorImage_build_empty_fat, sectorImage_build_empty_fat]
  · rw [sectorImage_build_root_dir, sectorImage_build_root_dir]

/-- Outside the two patched fields the boot sector carries the bytes of the
template. -/
theorem byteAt_boot_template (name : List Nat) (data_sectors fs_sectors_per_fat : Nat)
    (buf : Buffer) (i : Nat) (hi : i < 258) (h : ¬ (0x20 ≤ i ∧ i ≤ 0x27)) :
    byteAt (sectorImage (build_dosbootsector name data_sectors fs_sectors_per_fat buf)) i
      = byteAt boot_bytes i := by
  rw [byteAt_sectorImage, if_pos (by omega), build_dosbootsector_apply]
  split_ifs <;> first | rfl | omega

/-- The BIOS parameter block of the template. -/
theorem boot_bytes_parameter_block :
    le16 boot_bytes 0x0B = 512 ∧ byteAt boot_bytes 0x0D = 8 ∧ le16 boot_bytes 0x0E = 568
      ∧ byteAt boot_bytes 0x10 = 2 ∧ le32 boot_bytes 0x2C = 2 ∧ le16 boot_bytes 0x30 = 1
      ∧ le16 boot_bytes 0x32 = 6 := by
  decide

/-- C19: for every argument value the image produced by `build_dosbootsector` has
bytes-per-sector (0x0B..0x0C) 512, sectors-per-cluster (0x0D) 8, the value of
`sectors_per_cluster`, reserved sectors (0x0E..0x0F) 568, the value of
`reserved_sectors`, number of FATs (0x10) 2, root directory first cluster
(0x2C..0x2F) 2, FS information sector number (0x30..0x31) 1 and backup boot sector
number (0x32..0x33) 6; the sectors `main` writes the FS information sector and the
backup boot sector to are 2048 plus these two numbers. -/
theorem boot_sector_parameter_block (name : List Nat) (data_sectors fs_sectors_per_fat : Nat)
    (buf : Buffer) (g : Geometry) (m : Machine) :
    le16 (sectorImage (build_dosbootsector name data_sectors fs_sectors_per_fat buf)) 0x0B
        = 512
    ∧ byteAt (sectorImage (build_dosbootsector name data_sectors fs_sectors_per_fat buf)) 0x0D
        = 8
    ∧ byteAt (sectorImage (build_dosbootsector name data_sectors fs_sectors_per_fat buf)) 0x0D
        = sectors_per_cluster
    ∧ le16 (sectorImage (build_dosbootsector name data_sectors fs_sectors_per_fat buf)) 0x0E
        = 568
    ∧ le16 (sectorImage (build_dosbootsector name data_sectors fs_sectors_per_fat buf)) 0x0E
        = reserved_sectors
    ∧ byteAt (sectorImage (build_dosbootsector name data_sectors fs_sectors_per_fat buf)) 0x10
        = 2
    ∧ le32 (sectorImage (build_dosbootsector name data_sectors fs_sectors_per_fat buf)) 0x2C
        = 2
    ∧ le16 (sectorImage (build_dosbootsector name data_sectors fs_sectors_per_fat buf)) 0x30
        = 1
    ∧ le16 (sectorImage (build_dosbootsector name data_sectors fs_sectors_per_fat buf)) 0x32
        = 6
    ∧ (format g m).calls.map Call.written
        = m.calls.map Call.written
          ++ [some 0, none, some 2048,
              some (2048 + le16 (sectorImage
                (build_dosbootsector name data_sectors fs_sectors_per_fat buf)) 0x32),
              some (2048 + le16 (sectorImage
                (build_dosbootsector name data_sectors fs_sectors_per_fat buf)) 0x30),
              some 0x0807, some g.fat1_sector, some g.fat2_sector, some g.rootdir_sector,
              none, none, none, none, none] := by
  have t := byteAt_boot_template name data_sectors fs_sectors_per_fat buf
  have e0B : le16 (sectorImage
      (build_dosbootsector name data_sectors fs_sectors_per_fat buf)) 0x0B = 512 := by
    unfold le16
    rw [t _ (by norm_num) (by norm_num), t _ (by norm_num) (by norm_num)]
    exact boot_bytes_parameter_block.1
  have e0D : byteAt (sectorImage
      (build_dosbootsector name data_sectors fs_sectors_per_fat buf)) 0x0D = 8 := by
    rw [t _ (by norm_num) (by norm_num)]
    exact boot_bytes_parameter_block.2.1
  have e0E : le16 (sectorImage
      (build_dosbootsector name data_sectors fs_sectors_per_fat buf)) 0x0E = 568 := by
    unfold le16
    rw [t _ (by norm_num) (by norm_num), t _ (by norm_num) (by norm_num)]
    exact boot_bytes_parameter_block.2.2.1
  have e10 : byteAt (sectorImage
      (build_dosbootsector name data_sectors fs_sectors_per_fat buf)) 0x10 = 2 := by
    rw [t _ (by norm_num) (by norm_num)]
    exact boot_bytes_parameter_block.2.2.2.1
  have e2C : le32 (sectorImage
      (build_dosbootsector name data_sectors fs_sectors_per_fat buf)) 0x2C = 2 := by
    unfold le32
    rw [t _ (by norm_num) (by norm_num), t _ (by norm_num) (by norm_num),
      t _ (by norm_num) (by norm_num), t _ (by norm_num) (by norm_num)]
    exact boot_bytes_parameter_block.2.2.2.2.1
  have e30 : le16 (sectorImage
      (build_dosbootsector name data_sectors fs_sectors_per_fat buf)) 0x30 = 1 := by
    unfold le16
    rw [t _ (by norm_num) (by norm_num), t _ (by norm_num) (by norm_num)]
    exact boot_bytes_parameter_block.2.2.2.2.2.1
  have e32 : le16 (sectorImage
      (build_dosbootsector name data_sectors fs_sectors_per_fat buf)) 0x32 = 6 := by
    unfold le16
    rw [t _ (by norm_num) (by norm_num), t _ (by norm_num) (by norm_num)]
    exact boot_bytes_parameter_block.2.2.2.2.2.2
  refine ⟨e0B, e0D, e0D, e0E, e0E, e10, e2C, e30, e32, ?_⟩
  rw [e30, e32]
  exact format_written g m

/-! ### The calls of `main` and their replay -/

/-- The calls `format` adds to the log are `format_calls`. -/
theorem format_calls_eq (g : Geometry) (m : Machine) :
    (format g m).calls = m.calls ++ format_calls g := by
  simp only [format, sdcard_writesector, sdcard_erase, Machine.build, format_calls,
    sectorImage_build_mbr, sectorImage_build_dosbootsector,
    sectorImage_build_fs_information_sector, sectorImage_build_empty_fat,
    sectorImage_build_root_dir, List.append_assoc, List.cons_append, List.nil_append]

/-- The card `format` leaves is the replay of `format_calls` on the card it found. -/
theorem format_card_eq (g : Geometry) (m : Machine) :
    (format g m).card = replay (format_calls g) m.card := by
  simp only [format, sdcard_writesector, sdcard_erase, Machine.build, format_calls,
    sectorImage_build_mbr, sectorImage_build_dosbootsector,
    sectorImage_build_fs_information_sector, sectorImage_build_empty_fat,
    sectorImage_build_root_dir, replay, List.foldl_cons, List.foldl_nil, Call.apply]

/-- Cards that agree on a sector still agree on it after the same calls. -/
theorem replay_congr (s : Nat) :
    ∀ (calls : List Call) (c1 c2 : Nat → List Nat), c1 s = c2 s →
      replay calls c1 s = replay calls c2 s := by
  intro calls
  induction calls with
  | nil => intro c1 c2 h; exact h
  | cons c cs ih =>
    intro c1 c2 h
    simp only [replay, List.foldl_cons]
    apply ih
    cases c with
    | writesector sector image => simp only [Call.apply, h]
    | erase first last => simp only [Call.apply, h]

/-- A sector touched by one of the calls ends with a content that does not depend
on the card the calls started from. -/
theorem replay_touched (s : Nat) :
    ∀ (calls : List Call) (c1 c2 : Nat → List Nat), (∃ c ∈ calls, c.touches s) →
      replay calls c1 s = replay calls c2 s := by
  intro calls
  induction calls with
  | nil => intro c1 c2 h; obtain ⟨c, hc, _⟩ := h; cases hc
  | cons c cs ih =>
    intro c1 c2 h
    by_cases hcs : ∃ d ∈ cs, d.touches s
    · exact ih _ _ hcs
    · have hc : c.touches s := by
        obtain ⟨d, hd, ht⟩ := h
        rcases List.mem_cons.mp hd with rfl | hd
        · exact ht
        · exact absurd ⟨d, hd, ht⟩ hcs
      apply replay_congr s cs
      cases c with
      | writesector sector image =>
        simp only [Call.touches] at hc
        simp only [Call.apply, if_pos hc]
      | erase first last =>
        simp only [Call.touches] at hc
        simp only [Call.apply, if_pos hc]

/-- C14: for every card size for which the fitting loop terminates, the calls
`main` makes are, in this order: write the MBR image at sector 0; erase 1..2047;
write the boot sector image at 2048 and the same image at 2054; write the FS
information image at 2049 and the same image at 2055; write the empty FAT image at
`fat1_sector` and the same image at `fat2_sector`; write the root directory image
at `rootdir_sector`; then five erase calls and nothing else. -/
theorem main_call_order (fuel sdcard_sectors : Nat) (g : Geometry) (m : Machine)
    (h : plan fuel sdcard_sectors = some g) :
    main fuel sdcard_sectors m = some (format g m)
    ∧ (format g m).calls
      = m.calls
        ++ [ Call.writesector 0 (mbr_image g.partition_sectors),
             Call.erase 1 2047,
             Call.writesector 2048 (boot_image volume_name g.partition_sectors g.fat_sectors),
             Call.writesector 2054 (boot_image volume_name g.partition_sectors g.fat_sectors),
             Call.writesector 2049 (fs_information_image g.fs_clusters),
             Call.writesector 2055 (fs_information_image g.fs_clusters),
             Call.writesector g.fat1_sector empty_fat_image,
             Call.writesector g.fat2_sector empty_fat_image,
             Call.writesector g.rootdir_sector (root_dir_image volume_name) ]
        ++ [ Call.erase 2050 2053,
             Call.erase 2055 (sub32 g.fat1_sector 1),
             Call.erase (add32 g.fat1_sector 1) (sub32 g.fat2_sector 1),
             Call.erase (add32 g.fat2_sector 1) (sub32 g.rootdir_sector 1),
             Call.erase (add32 g.rootdir_sector 1)
               (sub32 (add32 (add32 g.rootdir_sector 1) sectors_per_cluster) 1) ] := by
  refine ⟨main_of_plan _ _ _ _ h, ?_⟩
  rw [format_calls_eq, List.append_assoc]
  rfl

/-- Witness for `main_call_order`: a card of 0x10000 sectors, a blank machine. -/
theorem main_call_order_witness :
    plan 3 65536 = some (layout 65536 63488 62920 ⟨7851, 62, 62916⟩)
    ∧ main 3 65536 Machine.blank
        = some (format (layout 65536 63488 62920 ⟨7851, 62, 62916⟩) Machine.blank) :=
  ⟨by decide,
    (main_call_order 3 65536 (layout 65536 63488 62920 ⟨7851, 62, 62916⟩) Machine.blank
      (by decide)).1⟩

/-- The last call of `format` erases `sectors_per_cluster` sectors from
`rootdir_sector + 1` on. -/
theorem format_last_call (g : Geometry) (m : Machine) (hb : g.rootdir_sector ≤ 4294967000) :
    (format g m).calls.getLast?
      = some (Call.erase (g.rootdir_sector + 1)
          (g.rootdir_sector + 1 + sectors_per_cluster - 1)) := by
  have e1 : add32 g.rootdir_sector 1 = g.rootdir_sector + 1 := by
    unfold add32; omega
  have e2 : sub32 (add32 (g.rootdir_sector + 1) sectors_per_cluster) 1
      = g.rootdir_sector + 1 + sectors_per_cluster - 1 := by
    unfold sub32 add32 sectors_per_cluster; omega
  rw [format_calls_eq]
  simp only [format_calls, e1, e2, List.getLast?_append, List.getLast?_cons_cons,
    List.getLast?_singleton]
  rfl

/-- The geometry carries the wrapped difference `sdcard_sectors - 0x0800`. -/
theorem plan_partition_sectors (fuel sdcard_sectors : Nat) (g : Geometry)
    (h : plan fuel sdcard_sectors = some g) :
    g.partition_sectors = sub32 sdcard_sectors 0x0800 := by
  simp only [plan, Option.map_eq_some'] at h
  obtain ⟨s, _, rfl⟩ := h
  rfl

/-- The partition size field of the MBR image. -/
theorem le32_mbr_image (partition_sectors : Nat) (h : partition_sectors < 4294967296) :
    le32 (mbr_image partition_sectors) 0x1CA = partition_sectors := by
  simp only [mbr_image, le32, byteAt_sectorImage, build_mbr, store_apply, shift_and_byte]
  norm_num
  omega

/-- The two patched fields of the boot sector image. -/
theorem le32_boot_image (name : List Nat) (data_sectors fs_sectors_per_fat : Nat)
    (hd : data_sectors < 4294967296) (hf : fs_sectors_per_fat < 4294967296) :
    le32 (boot_image name data_sectors fs_sectors_per_fat) 0x20 = data_sectors
    ∧ le32 (boot_image name data_sectors fs_sectors_per_fat) 0x24 = fs_sectors_per_fat := by
  constructor
  · simp only [boot_image, le32, byteAt_sectorImage, build_dosbootsector_apply]
    norm_num
    omega
  · simp only [boot_image, le32, byteAt_sectorImage, build_dosbootsector_apply]
    norm_num
    omega

/-- The boot sector image places cluster 2 right after the reserved sectors and
the two FATs. -/
theorem cluster_sector_boot_image (name : List Nat) (data_sectors fs_sectors_per_fat : Nat)
    (hd : data_sectors < 4294967296) (hf : fs_sectors_per_fat < 4294967296) :
    cluster_sector 0x0800 (boot_image name data_sectors fs_sectors_per_fat) 2
        = 0x0800 + 568 + 2 * fs_sectors_per_fat
    ∧ le32 (boot_image name data_sectors fs_sectors_per_fat) 0x2C = 2 := by
  have t := byteAt_boot_template name data_sectors fs_sectors_per_fat (fun _ => 0)
  have e24 := (le32_boot_image name data_sectors fs_sectors_per_fat hd hf).2
  have e0E : le16 (boot_image name data_sectors fs_sectors_per_fat) 0x0E = 568 := by
    unfold le16 boot_image
    rw [t _ (by norm_num) (by norm_num), t _ (by norm_num) (by norm_num)]
    exact boot_bytes_parameter_block.2.2.1
  have e10 : byteAt (boot_image name data_sectors fs_sectors_per_fat) 0x10 = 2 := by
    unfold boot_image
    rw [t _ (by norm_num) (by norm_num)]
    exact boot_bytes_parameter_block.2.2.2.1
  have e2C : le32 (boot_image name data_sectors fs_sectors_per_fat) 0x2C = 2 := by
    unfold le32 boot_image
    rw [t _ (by norm_num) (by norm_num), t _ (by norm_num) (by norm_num),
      t _ (by norm_num) (by norm_num), t _ (by norm_num) (by norm_num)]
    exact boot_bytes_parameter_block.2.2.2.2.1
  refine ⟨?_, e2C⟩
  unfold cluster_sector
  rw [e0E, e10, e24, Nat.sub_self, Nat.zero_mul, Nat.add_zero]

/-- C13, as amended: for every card size for which the fitting loop terminates,
`fat1_sector = 2048 + 568 = 2616`, `fat2_sector = fat1_sector + fat_sectors`,
`rootdir_sector = fat2_sector + fat_sectors`, and the first data cluster, cluster 2,
which the boot sector `main` writes at 2048 names as the root directory cluster,
starts at `rootdir_sector` itself; the sectors `main` clears after the root
directory sector start at `rootdir_sector + 1`. For a card of 0x10000 sectors:
`partition_sectors = 0xF800`, `fs_clusters = 7851`, `fat_sectors = 62`, boot sector
2048, backup boot sector 2054, FS information sector 2049, first FAT 2616, second
FAT 2678, root directory 2740. -/
theorem plan_offsets (fuel sdcard_sectors : Nat) (g : Geometry) (m : Machine)
    (h : plan fuel sdcard_sectors = some g) :
    (g.fat1_sector = 2048 + 568 ∧ g.fat1_sector = 2616
      ∧ g.fat2_sector = g.fat1_sector + g.fat_sectors
      ∧ g.rootdir_sector = g.fat2_sector + g.fat_sectors
      ∧ Call.writesector 0x0800 (boot_image volume_name g.partition_sectors g.fat_sectors)
          ∈ (format g m).calls.drop m.calls.length
      ∧ le32 (boot_image volume_name g.partition_sectors g.fat_sectors) 0x2C = 2
      ∧ cluster_sector 0x0800 (boot_image volume_name g.partition_sectors g.fat_sectors) 2
          = g.rootdir_sector
      ∧ (format g m).calls.getLast?
          = some (Call.erase (g.rootdir_sector + 1)
              (g.rootdir_sector + 1 + sectors_per_cluster - 1)))
    ∧ ((plan 3 0x10000).map
          (fun g => (g.partition_sectors, g.fs_clusters, g.fat_sectors, g.fat1_sector,
            g.fat2_sector, g.rootdir_sector))
        = some (0xF800, 7851, 62, 2616, 2678, 2740)
      ∧ (main 3 0x10000 Machine.blank).map (fun m => m.calls.map Call.written)
        = some [some 0, none, some 2048, some 2054, some 2049, some 2055,
            some 2616, some 2678, some 2740, none, none, none, none, none]) := by
  obtain ⟨h1, hb, h2, h3⟩ := plan_layout fuel sdcard_sectors g h
  have hp := plan_partition_sectors fuel sdcard_sectors g h
  have hplt : g.partition_sectors < 4294967296 := by rw [hp]; exact sub32_lt _ _
  obtain ⟨hc, h2C⟩ := cluster_sector_boot_image volume_name g.partition_sectors
    g.fat_sectors hplt (by omega)
  have hmem : Call.writesector 0x0800
      (boot_image volume_name g.partition_sectors g.fat_sectors)
      ∈ (format g m).calls.drop m.calls.length := by
    rw [format_calls_eq, List.drop_left]
    simp only [format_calls, List.mem_cons, true_or, or_true]
  refine ⟨⟨h1, h1, by omega, by omega, hmem, h2C, by rw [hc, h3],
    format_last_call g m (by omega)⟩, ?_, ?_⟩
  · decide
  · decide

/-- Witness for `plan_offsets`: a card of 0x10000 sectors, a blank machine. -/
theorem plan_offsets_witness :
    plan 3 65536 = some (layout 65536 63488 62920 ⟨7851, 62, 62916⟩)
    ∧ (layout 65536 63488 62920 ⟨7851, 62, 62916⟩).rootdir_sector
        = (layout 65536 63488 62920 ⟨7851, 62, 62916⟩).fat2_sector
          + (layout 65536 63488 62920 ⟨7851, 62, 62916⟩).fat_sectors
    ∧ cluster_sector 0x0800 (boot_image volume_name
          (layout 65536 63488 62920 ⟨7851, 62, 62916⟩).partition_sectors
          (layout 65536 63488 62920 ⟨7851, 62, 62916⟩).fat_sectors) 2
        = (layout 65536 63488 62920 ⟨7851, 62, 62916⟩).rootdir_sector :=
  ⟨by decide,
    (plan_offsets 3 65536 (layout 65536 63488 62920 ⟨7851, 62, 62916⟩) Machine.blank
      (by decide)).1.2.2.2.1,
    (plan_offsets 3 65536 (layout 65536 63488 62920 ⟨7851, 62, 62916⟩) Machine.blank
      (by decide)).1.2.2.2.2.2.2.1⟩

/-- C13 fails as stated: on a card of 0x10000 sectors `rootdir_sector` is 2740, and
the boot sector `main` leaves at sector 2048 names cluster 2 as the first cluster
and places it at sector 2048 + 568 + 2*62 = 2740, the root directory sector whose
name field `main` wrote there: the first data cluster starts at `rootdir_sector`,
not at `rootdir_sector + 1 = 2741`. -/
theorem plan_offsets_counterexample :
    (plan 3 0x10000).map (fun g => g.rootdir_sector) = some 2740
    ∧ (main 3 0x10000 Machine.blank).map (fun m => le32 (m.card 0x0800) 0x2C) = some 2
    ∧ (main 3 0x10000 Machine.blank).map (fun m => cluster_sector 0x0800 (m.card 0x0800) 2)
        = some 2740
    ∧ (main 3 0x10000 Machine.blank).map (fun m => bytesAt (m.card 2740) 0 11)
        = some volume_name
    ∧ (main 3 0x10000 Machine.blank).map (fun m => cluster_sector 0x0800 (m.card 0x0800) 2)
        ≠ (plan 3 0x10000).map (fun g => g.rootdir_sector + 1) := by
  refine ⟨by decide, by decide, by decide, by decide, by decide⟩

/-- The only writes of sectors 0 and 0x0800 among `format_calls` are those of the
MBR image and of the boot sector image. -/
theorem format_calls_unique (g : Geometry) (h1 : g.fat1_sector = 2616)
    (h2 : g.fat2_sector = 2616 + g.fat_sectors)
    (h3 : g.rootdir_sector = 2616 + 2 * g.fat_sectors) (img : List Nat) :
    (Call.writesector 0 img ∈ format_calls g → img = mbr_image g.partition_sectors)
    ∧ (Call.writesector 0x0800 img ∈ format_calls g →
        img = boot_image volume_name g.partition_sectors g.fat_sectors) := by
  constructor
  · intro hm
    simp only [format_calls, List.mem_cons, Call.writesector.injEq, reduceCtorEq, false_or,
      or_false, List.mem_singleton, List.mem_nil_iff, h1, h2, h3] at hm
    rcases hm with h | h | h | h | h | h | h | h <;> obtain ⟨hs, hi⟩ := h
    all_goals first | exact hi | contradiction | (exfalso; omega)
  · intro hm
    simp only [format_calls, List.mem_cons, Call.writesector.injEq, reduceCtorEq, false_or,
      or_false, List.mem_singleton, List.mem_nil_iff, h1, h2, h3] at hm
    rcases hm with h | h | h | h | h | h | h | h <;> obtain ⟨hs, hi⟩ := h
    all_goals first | exact hi | contradiction | (exfalso; omega)

/-- C20: for every card size for which the fitting loop terminates, `main` writes
one image at sector 0, the MBR, and one at sector 2048, the boot sector; the total
logical sectors field of that boot sector (0x20..0x23) equals the partition size
field of that MBR (0x1CA..0x1CD), both being `sdcard_sectors - 2048` modulo `2^32`,
and the sectors-per-FAT field (0x24..0x27) equals `fat_sectors`. -/
theorem main_size_fields (fuel sdcard_sectors : Nat) (g : Geometry) (m : Machine)
    (h : plan fuel sdcard_sectors = some g) :
    main fuel sdcard_sectors m = some (format g m)
    ∧ Call.writesector 0 (mbr_image g.partition_sectors)
        ∈ (format g m).calls.drop m.calls.length
    ∧ Call.writesector 0x0800 (boot_image volume_name g.partition_sectors g.fat_sectors)
        ∈ (format g m).calls.drop m.calls.length
    ∧ ∀ mbr boot, Call.writesector 0 mbr ∈ (format g m).calls.drop m.calls.length →
        Call.writesector 0x0800 boot ∈ (format g m).calls.drop m.calls.length →
        le32 boot 0x20 = le32 mbr 0x1CA
        ∧ le32 mbr 0x1CA = (sdcard_sectors + 2 ^ 32 - 2048) % 2 ^ 32
        ∧ le32 boot 0x24 = g.fat_sectors := by
  obtain ⟨h1, hb, h2, h3⟩ := plan_layout fuel sdcard_sectors g h
  have hp := plan_partition_sectors fuel sdcard_sectors g h
  have hplt : g.partition_sectors < 4294967296 := by rw [hp]; exact sub32_lt _ _
  have hdrop : (format g m).calls.drop m.calls.length = format_calls g := by
    rw [format_calls_eq, List.drop_left]
  rw [hdrop]
  refine ⟨main_of_plan _ _ _ _ h, ?_, ?_, ?_⟩
  · simp only [format_calls, List.mem_cons, true_or]
  · simp only [format_calls, List.mem_cons, true_or, or_true]
  · intro mbr boot hm hbt
    have em := (format_calls_unique g h1 h2 h3 mbr).1 hm
    have eb := (format_calls_unique g h1 h2 h3 boot).2 hbt
    obtain ⟨e20, e24⟩ := le32_boot_image volume_name g.partition_sectors g.fat_sectors hplt
      (by omega)
    rw [em, eb, e20, e24, le32_mbr_image _ hplt, hp]
    exact ⟨rfl, rfl, rfl⟩

/-- Witness for `main_size_fields`: a card of 0x10000 sectors, a blank machine. -/
theorem main_size_fields_witness :
    plan 3 65536 = some (layout 65536 63488 62920 ⟨7851, 62, 62916⟩)
    ∧ main 3 65536 Machine.blank
        = some (format (layout 65536 63488 62920 ⟨7851, 62, 62916⟩) Machine.blank)
    ∧ Call.writesector 0x0800 (boot_image volume_name 63488 62)
        ∈ (format (layout 65536 63488 62920 ⟨7851, 62, 62916⟩) Machine.blank).calls.drop
            Machine.blank.calls.length :=
  ⟨by decide,
    (main_size_fields 3 65536 (layout 65536 63488 62920 ⟨7851, 62, 62916⟩) Machine.blank
      (by decide)).1,
    (main_size_fields 3 65536 (layout 65536 63488 62920 ⟨7851, 62, 62916⟩) Machine.blank
      (by decide)).2.2.1⟩

/-- Each structural sector is the target of one of the writes of `format_calls`. -/
theorem format_calls_touch (g : Geometry) (s : Nat)
    (hs : s ∈ [0, 2048, 2054, 2049, 2055, g.fat1_sector, g.fat2_sector,
      g.rootdir_sector]) : ∃ c ∈ format_calls g, c.touches s := by
  simp only [List.mem_cons, List.mem_singleton, List.mem_nil_iff, or_false] at hs
  rcases hs with rfl | rfl | rfl | rfl | rfl | rfl | rfl | rfl
  · exact ⟨Call.writesector 0 (mbr_image g.partition_sectors),
      by simp only [format_calls, List.mem_cons, true_or], rfl⟩
  · exact ⟨Call.writesector 0x0800 (boot_image volume_name g.partition_sectors g.fat_sectors),
      by simp only [format_calls, List.mem_cons, true_or, or_true], rfl⟩
  · exact ⟨Call.writesector 0x0806 (boot_image volume_name g.partition_sectors g.fat_sectors),
      by simp only [format_calls, List.mem_cons, true_or, or_true], rfl⟩
  · exact ⟨Call.writesector 0x0801 (fs_information_image g.fs_clusters),
      by simp only [format_calls, List.mem_cons, true_or, or_true], rfl⟩
  · exact ⟨Call.writesector 0x0807 (fs_information_image g.fs_clusters),
      by simp only [format_calls, List.mem_cons, true_or, or_true], rfl⟩
  · exact ⟨Call.writesector g.fat1_sector empty_fat_image,
      by simp only [format_calls, List.mem_cons, true_or, or_true], rfl⟩
  · exact ⟨Call.writesector g.fat2_sector empty_fat_image,
      by simp only [format_calls, List.mem_cons, true_or, or_true], rfl⟩
  · exact ⟨Call.writesector g.rootdir_sector (root_dir_image volume_name),
      by simp only [format_calls, List.mem_cons, true_or, or_true], rfl⟩

/-- The geometry does not depend on how much fuel the loop was given. -/
theorem plan_unique (fuel1 fuel2 sdcard_sectors : Nat) (g1 g2 : Geometry)
    (h1 : plan fuel1 sdcard_sectors = some g1) (h2 : plan fuel2 sdcard_sectors = some g2) :
    g1 = g2 := by
  rcases Nat.le_total fuel1 fuel2 with hle | hle
  · have h := plan_mono fuel1 fuel2 sdcard_sectors g1 hle h1
    rw [h2] at h
    exact (Option.some.inj h).symm
  · have h := plan_mono fuel2 fuel1 sdcard_sectors g2 hle h2
    rw [h1] at h
    exact Option.some.inj h

/-- C15: the format run is a function of the card size. For every card size for
which the fitting loop terminates, and any two machines (card contents, buffer
contents, earlier calls), the geometry is the same, the calls made, with sector
numbers, images and erase ranges, are the same, and a second run on the machine the
first run left leaves every structural sector (0, 2048, 2054, 2049, 2055, both FATs
and the root directory sector) with the content the first run left. -/
theorem format_run_function_of_size (fuel1 fuel2 sdcard_sectors : Nat) (g1 g2 : Geometry)
    (m1 m2 : Machine) (h1 : plan fuel1 sdcard_sectors = some g1)
    (h2 : plan fuel2 sdcard_sectors = some g2) :
    g1 = g2
    ∧ main fuel1 sdcard_sectors m1 = some (format g1 m1)
    ∧ main fuel2 sdcard_sectors m2 = some (format g2 m2)
    ∧ (format g1 m1).calls.drop m1.calls.length = (format g2 m2).calls.drop m2.calls.length
    ∧ main fuel1 sdcard_sectors (format g1 m1) = some (format g1 (format g1 m1))
    ∧ ∀ s, s ∈ [0, 2048, 2054, 2049, 2055, g1.fat1_sector, g1.fat2_sector,
          g1.rootdir_sector] →
        (format g1 (format g1 m1)).card s = (format g1 m1).card s := by
  have hg := plan_unique fuel1 fuel2 sdcard_sectors g1 g2 h1 h2
  subst hg
  refine ⟨rfl, main_of_plan _ _ _ _ h1, main_of_plan _ _ _ _ h2, ?_,
    main_of_plan _ _ _ _ h1, ?_⟩
  · rw [format_calls_eq, format_calls_eq, List.drop_left, List.drop_left]
  · intro s hs
    rw [format_card_eq g1 (format g1 m1), format_card_eq g1 m1]
    apply replay_touched
    exact format_calls_touch g1 s hs

/-- Witness for `format_run_function_of_size`: a card of 0x10000 sectors, planned
with fuel 3 and with fuel 5, run on a blank machine and on one filled with 0xE5. -/
theorem format_run_function_of_size_witness :
    plan 3 65536 = some (layout 65536 63488 62920 ⟨7851, 62, 62916⟩)
    ∧ plan 5 65536 = some (layout 65536 63488 62920 ⟨7851, 62, 62916⟩)
    ∧ (format (layout 65536 63488 62920 ⟨7851, 62, 62916⟩) Machine.blank).calls.drop
          Machine.blank.calls.length
        = (format (layout 65536 63488 62920 ⟨7851, 62, 62916⟩)
            ⟨fun _ => 0xE5, fun _ => List.replicate 512 0xE5, []⟩).calls.drop
              (List.length ([] : List Call)) :=
  ⟨by decide, by decide,
    (format_run_function_of_size 3 5 65536 (layout 65536 63488 62920 ⟨7851, 62, 62916⟩)
      (layout 65536 63488 62920 ⟨7851, 62, 62916⟩) Machine.blank
      ⟨fun _ => 0xE5, fun _ => List.replicate 512 0xE5, []⟩ (by decide) (by decide)).2.2.2.1⟩

/-! ### Convergence of the fitting loop -/

/-- One more execution of the body is one more application of `fit_step`. -/
theorem fit_state_succ (a k : Nat) : fit_state a (k + 1) = fit_step a (fit_state a k) :=
  Function.iterate_succ_apply' _ _ _

/-- If the body runs `k+1` times it runs `k` times and the condition holds in state `k`. -/
theorem fit_runs_succ (a k : Nat) (h : fit_runs a (k + 1)) :
    fit_runs a k ∧ (fit_state a k).sectors_required > a :=
  ⟨fun i hi => h i (by omega), h k (by omega)⟩

/-- In the range without wrap-around every state the loop visits is exact. -/
theorem fit_state_exact (a : Nat) (ha : 16 ≤ a) (hb : a ≤ 4286595055) :
    ∀ k, fit_runs a k → FitExact (fit_state a k) := by
  intro k
  induction k with
  | zero => intro _; exact fit_init_exact a ha hb
  | succ n ih =>
    intro h
    obtain ⟨hn, hc⟩ := fit_runs_succ a n h
    rw [fit_state_succ]
    exact (fit_step_exact a _ ha (ih hn) hc).1

/-- An exact step strictly lowers `sectors_required`. -/
theorem fit_step_required_lt (a : Nat) (s : Fit) (ha : 16 ≤ a) (hs : FitExact s)
    (hgt : s.sectors_required > a) :
    (fit_step a s).sectors_required < s.sectors_required := by
  obtain ⟨⟨h2n, hfn, hrn, _⟩, hdec⟩ := fit_step_exact a s ha hs hgt
  obtain ⟨h2, hfat, hreq, hlt⟩ := hs
  rw [hrn, hfn, hreq, hfat]
  generalize (fit_step a s).fs_clusters = fs2 at h2n hdec
  omega

/-- An exact loop ends within `sectors_required - available_sectors` executions of
its body. -/
theorem fit_loop_within (a : Nat) (ha : 16 ≤ a) :
    ∀ (fuel : Nat) (s : Fit), FitExact s → s.sectors_required - a ≤ fuel →
      ∃ r, fit_loop a fuel s = some r := by
  intro fuel
  induction fuel with
  | zero =>
    intro s _ hf
    exact ⟨s, fit_loop_exit a 0 s (by omega)⟩
  | succ n ih =>
    intro s hs hf
    by_cases hc : s.sectors_required > a
    · have hlt := fit_step_required_lt a s ha hs hc
      obtain ⟨r, hr⟩ := ih _ (fit_step_exact a s ha hs hc).1 (by omega)
      exact ⟨r, by simp only [fit_loop, if_pos hc, hr]⟩
    · exact ⟨s, fit_loop_exit a _ s (by omega)⟩

/-- The result of the loop is the state after the executions of the body it made. -/
theorem fit_loop_iterate (a : Nat) :
    ∀ (fuel : Nat) (s r : Fit), fit_loop a fuel s = some r →
      ∃ k, k ≤ fuel ∧ r = (fit_step a)^[k] s
        ∧ (∀ i, i < k → ((fit_step a)^[i] s).sectors_required > a)
        ∧ r.sectors_required ≤ a := by
  intro fuel
  induction fuel with
  | zero =>
    intro s r h
    simp only [fit_loop] at h
    split_ifs at h with hc
    cases h
    exact ⟨0, le_refl _, rfl, fun i hi => absurd hi (Nat.not_lt_zero i), by omega⟩
  | succ n ih =>
    intro s r h
    simp only [fit_loop] at h
    split_ifs at h with hc
    · obtain ⟨k, hk, hr, hrun, hle⟩ := ih _ _ h
      refine ⟨k + 1, by omega, ?_, ?_, hle⟩
      · rw [Function.iterate_succ_apply]
        exact hr
      · intro i hi
        cases i with
        | zero => exact hc
        | succ j =>
          rw [Function.iterate_succ_apply]
          exact hrun j (by omega)
    · cases h
      exact ⟨0, by omega, rfl, fun i hi => absurd hi (Nat.not_lt_zero i), by omega⟩

/-- From 2616 sectors on neither subtraction of lines 270-272 wraps. -/
theorem available_exact (sdcard_sectors : Nat) (hlo : 2616 ≤ sdcard_sectors)
    (hhi : sdcard_sectors < 4294967296) :
    sub32 (sub32 sdcard_sectors 0x0800) reserved_sectors = sdcard_sectors - 2616 := by
  simp only [sub32, reserved_sectors]
  omega

/-- Above the range without wrap-around the initial `sectors_required` wraps and
the loop condition is false on entry. -/
theorem fit_init_wrapped_high (available_sectors : Nat)
    (hlo : 4286595056 ≤ available_sectors) (hhi : available_sectors < 4294967296) :
    (fit_init available_sectors).sectors_required ≤ available_sectors := by
  have hfs : (fit_init available_sectors).fs_clusters = available_sectors / 8 := rfl
  have hfat : (fit_init available_sectors).fat_sectors
      = ((fit_init available_sectors).fs_clusters + 127) / 128 :=
    fat_sectors_of_eq (fit_init available_sectors).fs_clusters (by omega)
  have e : (fit_init available_sectors).sectors_required
      = sectors_required_of (fit_init available_sectors).fs_clusters
          (fit_init available_sectors).fat_sectors := rfl
  rw [e, hfat]
  generalize (fit_init available_sectors).fs_clusters = fs at hfs ⊢
  simp only [sectors_required_of, add32, mul32, sectors_per_cluster]
  rw [sub32_eq fs 2 (by omega) (by omega),
    Nat.mod_eq_of_lt (by omega : 2 * ((fs + 127) / 128) < 4294967296),
    Nat.mod_eq_of_lt (by omega : (fs - 2) * 8 < 4294967296),
    mod_wrap_once _ (by omega) (by omega)]
  omega

/-- From 16 available sectors on the loop ends within the initial excess. -/
theorem fit_loop_within_excess (a : Nat) (ha : 16 ≤ a) (hhi : a < 4294967296) :
    ∃ r, fit_loop a ((fit_init a).sectors_required - a) (fit_init a) = some r := by
  by_cases hb : a ≤ 4286595055
  · exact fit_loop_within a ha _ _ (fit_init_exact a ha hb) (le_refl _)
  · exact ⟨_, fit_loop_exit a _ _ (fit_init_wrapped_high a (by omega) hhi)⟩

/-- C16, as amended: for every card of at least 2632 sectors (32-bit), each
execution of the body of the fitting loop strictly lowers `fs_clusters` and
strictly lowers `sectors_required`, and the number `k` of executions is at most the
initial excess `sectors_required - available_sectors` of the estimate
`fs_clusters = available_sectors / 8`: zero when that estimate already fits. -/
theorem fit_loop_converges (sdcard_sectors : Nat) (hlo : 2632 ≤ sdcard_sectors)
    (hhi : sdcard_sectors < 2 ^ 32) :
    (∀ k, fit_runs (sdcard_sectors - 2616) (k + 1) →
        (fit_state (sdcard_sectors - 2616) (k + 1)).fs_clusters
          < (fit_state (sdcard_sectors - 2616) k).fs_clusters
        ∧ (fit_state (sdcard_sectors - 2616) (k + 1)).sectors_required
          < (fit_state (sdcard_sectors - 2616) k).sectors_required)
    ∧ ∃ g k,
        plan ((fit_init (sdcard_sectors - 2616)).sectors_required - (sdcard_sectors - 2616))
          sdcard_sectors = some g
        ∧ g.available_sectors = sdcard_sectors - 2616
        ∧ k ≤ (fit_init (sdcard_sectors - 2616)).sectors_required - (sdcard_sectors - 2616)
        ∧ fit_runs (sdcard_sectors - 2616) k
        ∧ (fit_state (sdcard_sectors - 2616) k).sectors_required ≤ sdcard_sectors - 2616
        ∧ g.fs_clusters = (fit_state (sdcard_sectors - 2616) k).fs_clusters
        ∧ g.fat_sectors = (fit_state (sdcard_sectors - 2616) k).fat_sectors := by
  have hhi2 : sdcard_sectors < 4294967296 := by omega
  clear hhi
  have hav := available_exact sdcard_sectors (by omega) hhi2
  have ha : 16 ≤ sdcard_sectors - 2616 := by omega
  have hlt : sdcard_sectors - 2616 < 4294967296 := by omega
  generalize sdcard_sectors - 2616 = a at hav ha hlt ⊢
  constructor
  · intro k hrun
    obtain ⟨hk, hc⟩ := fit_runs_succ a k hrun
    by_cases hb : a ≤ 4286595055
    · have hex := fit_state_exact a ha hb k hk
      rw [fit_state_succ]
      exact ⟨(fit_step_exact a _ ha hex hc).2, fit_step_required_lt a _ ha hex hc⟩
    · have h0 : (fit_state a 0).sectors_required > a := hrun 0 (by omega)
      have hw := fit_init_wrapped_high a (by omega) hlt
      exact absurd hw (Nat.not_le.mpr h0)
  · obtain ⟨r, hr⟩ := fit_loop_within_excess a ha hlt
    obtain ⟨k, hk, hrk, hrun, hle⟩ := fit_loop_iterate a _ _ _ hr
    refine ⟨layout sdcard_sectors (sub32 sdcard_sectors 0x0800) a r, k, ?_, rfl, hk, hrun,
      ?_, ?_, ?_⟩
    · simp only [plan, hav, hr, Option.map_some']
    · show ((fit_step a)^[k] (fit_init a)).sectors_required ≤ a
      rw [← hrk]
      exact hle
    · show r.fs_clusters = ((fit_step a)^[k] (fit_init a)).fs_clusters
      rw [hrk]
    · show r.fat_sectors = ((fit_step a)^[k] (fit_init a)).fat_sectors
      rw [hrk]

/-- Witness for `fit_loop_converges`: a card of 0x10000 sectors. -/
theorem fit_loop_converges_witness :
    2632 ≤ 65536 ∧ 65536 < 2 ^ 32
    ∧ ∀ k, fit_runs (65536 - 2616) (k + 1) →
        (fit_state (65536 - 2616) (k + 1)).fs_clusters
          < (fit_state (65536 - 2616) k).fs_clusters
        ∧ (fit_state (65536 - 2616) (k + 1)).sectors_required
          < (fit_state (65536 - 2616) k).sectors_required :=
  ⟨by norm_num, by norm_num, (fit_loop_converges 65536 (by norm_num) (by norm_num)).1⟩

/-- C16 fails as stated: for a card of 2617 sectors (one available sector) the
initial estimate is `fs_clusters = 0` with `sectors_required = 4294967280`, so the
body of the loop is executed, and its first execution raises `fs_clusters` from 0 to
3817748710. -/
theorem fit_loop_converges_counterexample :
    (plan 11 2617).map (fun g => g.available_sectors) = some 1
    ∧ ((fit_state 1 0).fs_clusters, (fit_state 1 0).sectors_required) = (0, 4294967280)
    ∧ (fit_state 1 0).sectors_required > 1
    ∧ (fit_state 1 1).fs_clusters = 3817748710
    ∧ ¬ ((fit_state 1 1).fs_clusters < (fit_state 1 0).fs_clusters) := by
  refine ⟨by decide, by decide, by decide, by decide, by decide⟩

/-- An exact step subtracts `max 1 (excess / 9)` from `fs_clusters` without borrow. -/
theorem fit_step_fs_exact (a : Nat) (s : Fit) (ha : 16 ≤ a) (hs : FitExact s)
    (hgt : s.sectors_required > a) :
    (fit_step a s).fs_clusters + max 1 ((s.sectors_required - a) / 9) = s.fs_clusters := by
  obtain ⟨h2, hfat, hreq, hlt⟩ := hs
  simp only [fit_step, sectors_per_cluster]
  rw [sub32_eq s.sectors_required a (by omega) hlt]
  split_ifs with h
  · rw [sub32_eq s.fs_clusters 1 (by omega) (by omega)]
    omega
  · have hd : (s.sectors_required - a) / (1 + 8) ≤ s.fs_clusters - 2 := by
      omega
    rw [sub32_eq s.fs_clusters _ (by omega) (by omega)]
    omega

/-- After an exact step one more cluster would not fit. -/
theorem fit_step_tight (a : Nat) (s : Fit) (ha : 16 ≤ a) (hs : FitExact s)
    (hgt : s.sectors_required > a) :
    a < 2 * (((fit_step a s).fs_clusters + 1 + 127) / 128)
          + ((fit_step a s).fs_clusters + 1 - 2) * 8 := by
  have hstep := fit_step_fs_exact a s ha hs hgt
  obtain ⟨h2n, _⟩ := fit_step_fs a s ha hs hgt
  obtain ⟨h2, hfat, hreq, hlt⟩ := hs
  generalize (fit_step a s).fs_clusters = fs2 at hstep h2n ⊢
  rcases Nat.lt_or_ge ((s.sectors_required - a) / 9) 1 with h | h
  · rw [max_eq_left (by omega)] at hstep
    omega
  · rw [max_eq_right h] at hstep
    omega

/-- Once one more cluster does not fit, this stays so until the loop ends. -/
theorem fit_loop_tight (a : Nat) (ha : 16 ≤ a) :
    ∀ (fuel : Nat) (s r : Fit), FitExact s →
      a < 2 * ((s.fs_clusters + 1 + 127) / 128) + (s.fs_clusters + 1 - 2) * 8 →
      fit_loop a fuel s = some r →
      a < 2 * ((r.fs_clusters + 1 + 127) / 128) + (r.fs_clusters + 1 - 2) * 8 := by
  intro fuel
  induction fuel with
  | zero =>
    intro s r _ ht h
    simp only [fit_loop] at h
    split_ifs at h with hc
    cases h
    exact ht
  | succ n ih =>
    intro s r hs ht h
    simp only [fit_loop] at h
    split_ifs at h with hc
    · exact ih _ _ (fit_step_exact a s ha hs hc).1 (fit_step_tight a s ha hs hc) h
    · cases h
      exact ht

/-- In the range without wrap-around `plan` returns, for enough fuel, the layout of
an exact final state that fits. -/
theorem plan_exact (sdcard_sectors : Nat) (hlo : 2632 ≤ sdcard_sectors)
    (hhi : sdcard_sectors ≤ 4286597671) :
    ∃ r, (∀ fuel, sdcard_sectors / 8 ≤ fuel →
          plan fuel sdcard_sectors
            = some (layout sdcard_sectors (sdcard_sectors - 2048) (sdcard_sectors - 2616) r))
      ∧ fit_loop (sdcard_sectors - 2616) (sdcard_sectors / 8)
          (fit_init (sdcard_sectors - 2616)) = some r
      ∧ FitExact r ∧ r.sectors_required ≤ sdcard_sectors - 2616 := by
  have hp : sub32 sdcard_sectors 0x0800 = sdcard_sectors - 2048 :=
    sub32_eq _ _ (by omega) (by omega)
  have hav := available_exact sdcard_sectors (by omega) (by omega)
  rw [hp] at hav
  have hinit := fit_init_exact (sdcard_sectors - 2616) (by omega) (by omega)
  have hfs : (fit_init (sdcard_sectors - 2616)).fs_clusters = (sdcard_sectors - 2616) / 8 := rfl
  obtain ⟨r, hr, hex, hle⟩ :=
    fit_loop_exact (sdcard_sectors - 2616) (by omega) (sdcard_sectors / 8) _ hinit (by omega)
  refine ⟨r, ?_, hr, hex, hle⟩
  intro fuel hfuel
  simp only [plan, hp, hav, fit_loop_mono _ _ _ _ _ hfuel hr, Option.map_some']

/-- In the range without wrap-around, when the initial estimate does not fit, the
cluster count `plan` returns is the largest that fits. -/
theorem plan_maximal_of_runs (sdcard_sectors : Nat) (hlo : 2632 ≤ sdcard_sectors)
    (hhi : sdcard_sectors ≤ 4286597671)
    (hrun : (fit_init (sdcard_sectors - 2616)).sectors_required > sdcard_sectors - 2616) :
    ∃ g, (∀ fuel, sdcard_sectors / 8 ≤ fuel → plan fuel sdcard_sectors = some g)
      ∧ 2 * (((g.fs_clusters + 127) / 128 : Nat) : Int) + ((g.fs_clusters : Int) - 2) * 8
          ≤ ((sdcard_sectors - 2616 : Nat) : Int)
      ∧ ∀ c : Nat, 2 * (((c + 127) / 128 : Nat) : Int) + ((c : Int) - 2) * 8
          ≤ ((sdcard_sectors - 2616 : Nat) : Int) → c ≤ g.fs_clusters := by
  obtain ⟨r, hplan, hr, hex, hle⟩ := plan_exact sdcard_sectors hlo hhi
  have ha : 16 ≤ sdcard_sectors - 2616 := by omega
  have hinit := fit_init_exact (sdcard_sectors - 2616) ha (by omega)
  generalize sdcard_sectors - 2616 = a at *
  have hpos : 0 < sdcard_sectors / 8 := by omega
  obtain ⟨n, hn⟩ : ∃ n, sdcard_sectors / 8 = n + 1 := ⟨sdcard_sectors / 8 - 1, by omega⟩
  rw [hn] at hr
  simp only [fit_loop, if_pos hrun] at hr
  have ht := fit_loop_tight a ha n _ r (fit_step_exact a _ ha hinit hrun).1
    (fit_step_tight a _ ha hinit hrun) hr
  obtain ⟨h2, hfat, hreq, hlt⟩ := hex
  refine ⟨_, hplan, ?_, ?_⟩
  · show 2 * (((r.fs_clusters + 127) / 128 : Nat) : Int) + ((r.fs_clusters : Int) - 2) * 8
      ≤ (a : Int)
    omega
  · intro c hc
    show c ≤ r.fs_clusters
    omega

/-- C17 does not hold of the code: for a card of 2632 sectors (16 available
sectors) the initial estimate `fs_clusters = 2` already fits, the body of the loop
is never executed and 2 is returned, although 3 clusters fit as well:
`2*ceil(3/128) + (3 - 2)*8 = 10 <= 16`. -/
theorem plan_returns_less_than_maximum :
    plan 0 2632 = some (layout 2632 584 16 ⟨2, 1, 2⟩)
    ∧ ((layout 2632 584 16 ⟨2, 1, 2⟩).available_sectors,
        (layout 2632 584 16 ⟨2, 1, 2⟩).fs_clusters) = (16, 2)
    ∧ 2 * (((3 + 127) / 128 : Nat) : Int) + ((3 : Int) - 2) * 8 ≤ (16 : Int)
    ∧ ¬ ((3 : Nat) ≤ (layout 2632 584 16 ⟨2, 1, 2⟩).fs_clusters) := by
  refine ⟨by decide, by decide, by decide, by decide⟩

/-- C18: for every card of 2632 to `2^31` sectors no 32-bit operation of the
geometry computation wraps: every state the loop visits has `fs_clusters >= 2` and
a `sectors_required` that is the exact sum, below `2^32`; each execution of the
body subtracts `max 1 (excess / 9)` without borrow; the loop terminates; the
differences, offsets and `fs_data_sectors` are the exact values, below `2^32`; and
`rootdir_sector + (fs_clusters - 2)*8 <= sdcard_sectors` in exact arithmetic. -/
theorem plan_no_wrap (sdcard_sectors : Nat) (hlo : 2632 ≤ sdcard_sectors)
    (hhi : sdcard_sectors ≤ 2 ^ 31) :
    (∀ k, fit_runs (sdcard_sectors - 2616) k →
        2 ≤ (fit_state (sdcard_sectors - 2616) k).fs_clusters
        ∧ (fit_state (sdcard_sectors - 2616) k).fat_sectors
            = ((fit_state (sdcard_sectors - 2616) k).fs_clusters + 127) / 128
        ∧ (fit_state (sdcard_sectors - 2616) k).sectors_required
            = 2 * (fit_state (sdcard_sectors - 2616) k).fat_sectors
              + ((fit_state (sdcard_sectors - 2616) k).fs_clusters - 2) * 8
        ∧ (fit_state (sdcard_sectors - 2616) k).sectors_required < 2 ^ 32)
    ∧ (∀ k, fit_runs (sdcard_sectors - 2616) (k + 1) →
        (fit_state (sdcard_sectors - 2616) (k + 1)).fs_clusters
          + max 1 (((fit_state (sdcard_sectors - 2616) k).sectors_required
              - (sdcard_sectors - 2616)) / 9)
          = (fit_state (sdcard_sectors - 2616) k).fs_clusters)
    ∧ ∃ g, (∀ fuel, sdcard_sectors / 8 ≤ fuel → plan fuel sdcard_sectors = some g)
        ∧ g.partition_sectors = sdcard_sectors - 2048
        ∧ g.available_sectors = sdcard_sectors - 2616
        ∧ 2 ≤ g.fs_clusters
        ∧ g.fat_sectors = (g.fs_clusters + 127) / 128
        ∧ g.sectors_required = 2 * g.fat_sectors + (g.fs_clusters - 2) * 8
        ∧ g.sectors_required ≤ g.available_sectors
        ∧ g.fat1_sector = 2048 + 568
        ∧ g.fat2_sector = g.fat1_sector + g.fat_sectors
        ∧ g.rootdir_sector = g.fat2_sector + g.fat_sectors
        ∧ g.fs_data_sectors = g.fs_clusters * 8
        ∧ g.rootdir_sector + 9 < 2 ^ 32
        ∧ g.fs_data_sectors < 2 ^ 32
        ∧ (g.rootdir_sector : Int) + ((g.fs_clusters : Int) - 2) * 8
            ≤ (sdcard_sectors : Int) := by
  have hhi2 : sdcard_sectors ≤ 2147483648 := by omega
  clear hhi
  have ha : 16 ≤ sdcard_sectors - 2616 := by omega
  have hb : sdcard_sectors - 2616 ≤ 4286595055 := by omega
  refine ⟨?_, ?_, ?_⟩
  · intro k hk
    obtain ⟨h2, hfat, hreq, hlt⟩ := fit_state_exact _ ha hb k hk
    exact ⟨h2, hfat, hreq, by omega⟩
  · intro k hk
    obtain ⟨hk', hc⟩ := fit_runs_succ _ k hk
    rw [fit_state_succ]
    exact fit_step_fs_exact _ _ ha (fit_state_exact _ ha hb k hk') hc
  · obtain ⟨r, hplan, _, ⟨h2, hfat, hreq, hlt⟩, hle⟩ :=
      plan_exact sdcard_sectors hlo (by omega)
    obtain ⟨h1, hfb, hl2, hl3⟩ := plan_layout _ _ _ (hplan _ (le_refl _))
    have hdata : mul32 r.fs_clusters sectors_per_cluster = r.fs_clusters * 8 := by
      unfold mul32 sectors_per_cluster
      omega
    refine ⟨_, hplan, rfl, rfl, h2, hfat, hreq, hle, h1, ?_, ?_, hdata, ?_, ?_, ?_⟩
    · rw [hl2, h1]
    · rw [hl3, hl2]; omega
    · rw [hl3]; omega
    · show mul32 r.fs_clusters sectors_per_cluster < 2 ^ 32
      rw [hdata]
      omega
    · rw [hl3]
      show ((2616 + 2 * r.fat_sectors : Nat) : Int) + ((r.fs_clusters : Int) - 2) * 8
        ≤ (sdcard_sectors : Int)
      omega

/-- Witness for `plan_no_wrap`: a card of 0x10000 sectors. -/
theorem plan_no_wrap_witness :
    2632 ≤ 65536 ∧ 65536 ≤ 2 ^ 31
    ∧ ∀ k, fit_runs (65536 - 2616) (k + 1) →
        (fit_state (65536 - 2616) (k + 1)).fs_clusters
          + max 1 (((fit_state (65536 - 2616) k).sectors_required - (65536 - 2616)) / 9)
          = (fit_state (65536 - 2616) k).fs_clusters :=
  ⟨by norm_num, by norm_num, (plan_no_wrap 65536 (by norm_num) (by norm_num)).2.1⟩

end Fdisk
